import Mathlib

/-!
A verification development for the deterministic recovery-plan generation and
clinic-override enforcement engine
(`app/backend/src/services/plan/generatePlan.ts` and
`app/backend/src/services/plan/enforceClinicOverrides.ts`).

The TypeScript engine manipulates untyped JSON values; we embed those as the
inductive `Json` below.  JavaScript numbers are modelled as integers: every
arithmetic operation the engine performs on numbers (day clamping, cap sizes,
schema versions) is integral, and no claim concerns fractional values.
JavaScript string-to-number coercion (`Number("5")`) and prototype-chain lookup
are likewise not modelled; no engine-produced value exercises them.
-/

/-- Embedding of the JSON-ish runtime values (`unknown`) the engine works on.
An object is an ordered association list, mirroring JavaScript property order;
keys are unique in every value a JavaScript program can build. -/
inductive Json where
  | null : Json
  | bool (b : Bool) : Json
  | num (n : Int) : Json
  | str (s : String) : Json
  | arr (elems : List Json) : Json
  | obj (fields : List (String × Json)) : Json
deriving Repr

namespace Json

mutual

/-- Decidable equality for `Json` (hand-written: `Json` is a nested
inductive, so it cannot be derived). -/
def decEq : (a b : Json) → Decidable (a = b)
  | .null, .null => isTrue rfl
  | .bool a, .bool b =>
      match decide (a = b), of_decide_eq_true (p := a = b), of_decide_eq_false (p := a = b) with
      | true, ht, _ => isTrue (ht rfl ▸ rfl)
      | false, _, hf => isFalse (fun he => absurd (Json.bool.inj he) (hf rfl))
  | .num a, .num b =>
      match decide (a = b), of_decide_eq_true (p := a = b), of_decide_eq_false (p := a = b) with
      | true, ht, _ => isTrue (ht rfl ▸ rfl)
      | false, _, hf => isFalse (fun he => absurd (Json.num.inj he) (hf rfl))
  | .str a, .str b =>
      match decide (a = b), of_decide_eq_true (p := a = b), of_decide_eq_false (p := a = b) with
      | true, ht, _ => isTrue (ht rfl ▸ rfl)
      | false, _, hf => isFalse (fun he => absurd (Json.str.inj he) (hf rfl))
  | .arr xs, .arr ys =>
      match decEqList xs ys with
      | isTrue h => isTrue (h ▸ rfl)
      | isFalse h => isFalse (fun he => h (Json.arr.inj he))
  | .obj xs, .obj ys =>
      match decEqFields xs ys with
      | isTrue h => isTrue (h ▸ rfl)
      | isFalse h => isFalse (fun he => h (Json.obj.inj he))
  | .null, .bool _ => isFalse nofun
  | .null, .num _ => isFalse nofun
  | .null, .str _ => isFalse nofun
  | .null, .arr _ => isFalse nofun
  | .null, .obj _ => isFalse nofun
  | .bool _, .null => isFalse nofun
  | .bool _, .num _ => isFalse nofun
  | .bool _, .str _ => isFalse nofun
  | .bool _, .arr _ => isFalse nofun
  | .bool _, .obj _ => isFalse nofun
  | .num _, .null => isFalse nofun
  | .num _, .bool _ => isFalse nofun
  | .num _, .str _ => isFalse nofun
  | .num _, .arr _ => isFalse nofun
  | .num _, .obj _ => isFalse nofun
  | .str _, .null => isFalse nofun
  | .str _, .bool _ => isFalse nofun
  | .str _, .num _ => isFalse nofun
  | .str _, .arr _ => isFalse nofun
  | .str _, .obj _ => isFalse nofun
  | .arr _, .null => isFalse nofun
  | .arr _, .bool _ => isFalse nofun
  | .arr _, .num _ => isFalse nofun
  | .arr _, .str _ => isFalse nofun
  | .arr _, .obj _ => isFalse nofun
  | .obj _, .null => isFalse nofun
  | .obj _, .bool _ => isFalse nofun
  | .obj _, .num _ => isFalse nofun
  | .obj _, .str _ => isFalse nofun
  | .obj _, .arr _ => isFalse nofun

/-- Decidable equality for lists of `Json`. -/
def decEqList : (a b : List Json) → Decidable (a = b)
  | [], [] => isTrue rfl
  | [], _ :: _ => isFalse nofun
  | _ :: _, [] => isFalse nofun
  | x :: xs, y :: ys =>
      match decEq x y with
      | isTrue h1 =>
          match decEqList xs ys with
          | isTrue h2 => isTrue (by rw [h1, h2])
          | isFalse h2 => isFalse (fun he => by injection he with he1 he2; exact h2 he2)
      | isFalse h1 => isFalse (fun he => by injection he with he1 he2; exact h1 he1)

/-- Decidable equality for `Json` object field lists. -/
def decEqFields : (a b : List (String × Json)) → Decidable (a = b)
  | [], [] => isTrue rfl
  | [], _ :: _ => isFalse nofun
  | _ :: _, [] => isFalse nofun
  | (k, v) :: xs, (l, w) :: ys =>
      if h1 : k = l then
        match decEq v w with
        | isTrue h2 =>
            match decEqFields xs ys with
            | isTrue h3 => isTrue (by rw [h1, h2, h3])
            | isFalse h3 => isFalse (fun he => by injection he with he1 he2; exact h3 he2)
        | isFalse h2 =>
            isFalse (fun he => by
              injection he with he1 he2
              exact h2 (congrArg Prod.snd he1))
      else
        isFalse (fun he => by
          injection he with he1 he2
          exact h1 (congrArg Prod.fst he1))

end

instance : DecidableEq Json := Json.decEq

/-- `isPlainObject` from `generatePlan.ts` / `enforceClinicOverrides.ts`:
`typeof v === "object" && v !== null && !Array.isArray(v)`. -/
def isPlainObject : Json → Bool
  | .obj _ => true
  | _ => false

/-- `asArray` from `generatePlan.ts`: `Array.isArray(v) ? v : []`. -/
def asArray : Json → List Json
  | .arr xs => xs
  | _ => []

/-- JavaScript property read `v[key]` on a plain object (`undefined` ↦ `none`).
Reads on non-objects yield `undefined`. -/
def lookup : Json → String → Option Json
  | .obj fields, key => (fields.find? (fun p => p.1 = key)).map (fun p => p.2)
  | _, _ => none

/-- JavaScript truthiness of a value (`Boolean(v)`); `undefined` is handled by
callers via `Option`. -/
def truthy : Json → Bool
  | .null => false
  | .bool b => b
  | .num n => n ≠ 0
  | .str s => s ≠ ""
  | .arr _ => true
  | .obj _ => true

/-- JavaScript object spread update `{...j, key: v}`: replace the binding in
place when present, append otherwise.  Spreading a non-object yields just the
new binding (string character spreading is not modelled; the engine only
spreads objects it built itself). -/
def setField : Json → String → Json → Json
  | .obj fields, key, v =>
      if fields.any (fun p => p.1 = key) then
        .obj (fields.map (fun p => if p.1 = key then (key, v) else p))
      else
        .obj (fields ++ [(key, v)])
  | _, key, v => .obj [(key, v)]

end Json

/-- Association-list read on a modules dictionary (`modulesDict[id]`). -/
def lookupFields (fields : List (String × Json)) (key : String) : Option Json :=
  (fields.find? (fun p => p.1 = key)).map (fun p => p.2)

/-- `phaseForDay` from `generatePlan.ts`. -/
def phaseForDay (day : Nat) : String :=
  if day ≤ 3 then "early" else if day ≤ 10 then "mid" else "late"

/-- JavaScript `String.prototype.trim`: strip leading and trailing whitespace
(modelled directly on the character list so it evaluates in the kernel). -/
def jsTrim (s : String) : String :=
  ⟨((s.data.dropWhile Char.isWhitespace).reverse.dropWhile Char.isWhitespace).reverse⟩

/-- `dedupe` from `generatePlan.ts`: trim each string, drop empties, keep the
first occurrence of each key. -/
def dedupe (arr : List String) : List String :=
  (arr.foldl
    (fun (acc : List String) s =>
      let key := jsTrim s
      if key = "" then acc
      else if acc.contains key then acc
      else acc ++ [key])
    [])

/-- `getStr` from `generatePlan.ts`: read a config field, `null` unless it is a
string. -/
def getStr (config : Json) (key : String) : Option String :=
  match config.lookup key with
  | some (.str s) => some s
  | _ => none

/-- The template v2 day shape (`DayV2` in `generatePlan.ts`).  `phase` is kept
as the string the code stores ("early" / "mid" / "late"). -/
structure DayV2 where
  day : Nat
  phase : String
  title : String
  moduleIds : List String
  boxItems : List String
deriving DecidableEq, Repr

/-- String elements of a JSON array (`.filter((x) => typeof x === "string")`). -/
def strElems (xs : List Json) : List String :=
  xs.filterMap (fun j => match j with | .str s => some s | _ => none)

/-- `normalizeDayV2` from `generatePlan.ts`. -/
def normalizeDayV2 (raw : Json) (dayIndex : Nat) : DayV2 :=
  let obj := if raw.isPlainObject then raw else .obj []
  let day : Nat :=
    match obj.lookup "day" with
    | some (.num n) => (max 0 (min 20 n)).toNat
    | _ => dayIndex
  let phase : String :=
    match obj.lookup "phase" with
    | some (.str s) => if s = "early" ∨ s = "mid" ∨ s = "late" then s else phaseForDay day
    | _ => phaseForDay day
  let title : String :=
    match obj.lookup "title" with
    | some (.str s) => s
    | _ => s!"Day {day}"
  let moduleIds := strElems (Json.asArray ((obj.lookup "moduleIds").getD .null))
  let boxItems := strElems (Json.asArray ((obj.lookup "boxItems").getD .null))
  { day, phase, title, moduleIds, boxItems }

/-- Insertion into the `byDay` map of `ensure21Days` (`Map.set`: later
insertions with the same key overwrite earlier ones). -/
def mapInsert (m : List (Nat × DayV2)) (k : Nat) (v : DayV2) : List (Nat × DayV2) :=
  if m.any (fun p => p.1 = k) then
    m.map (fun p => if p.1 = k then (k, v) else p)
  else
    m ++ [(k, v)]

/-- `Map.get` on the `byDay` map. -/
def mapGet (m : List (Nat × DayV2)) (k : Nat) : Option DayV2 :=
  (m.find? (fun p => p.1 = k)).map (fun p => p.2)

/-- The default `DayBlock` `ensure21Days` synthesizes for a missing day. -/
def defaultDay (day : Nat) : DayV2 :=
  let phase := phaseForDay day
  { day
    phase
    title :=
      if day ≤ 3 then s!"Day {day}: Getting organized"
      else if phase = "mid" then s!"Day {day}: Build consistency"
      else s!"Day {day}: Maintain progress"
    moduleIds := ["checkin_overall", "track_pain", "rf_emergency", "rf_worsening"]
    boxItems := if day ≤ 3 then ["box_gauze", "box_tape", "box_coldpack"] else [] }

/-- `ensure21Days` from `generatePlan.ts`. -/
def ensure21Days (days : List DayV2) : List DayV2 :=
  let byDay := days.foldl (fun m d => mapInsert m d.day d) []
  (List.range 21).map (fun day =>
    match mapGet byDay day with
    | some existing => { existing with day := day, phase := phaseForDay day }
    | none => defaultDay day)

/-- `addModule` from `generatePlan.ts` (`day.moduleIds.push(id)`). -/
def addModule (d : DayV2) (id : String) : DayV2 :=
  { d with moduleIds := d.moduleIds ++ [id] }

/-- `addModuleEvery` from `generatePlan.ts`. -/
def addModuleEvery (days : List DayV2) (id : String) : List DayV2 :=
  days.map (fun d => addModule d id)

/-- `addModuleOnDays` from `generatePlan.ts`. -/
def addModuleOnDays (days : List DayV2) (id : String) (dayNumbers : List Nat) : List DayV2 :=
  days.map (fun d => if dayNumbers.contains d.day then addModule d id else d)

/-- `addModuleInPhase` from `generatePlan.ts`. -/
def addModuleInPhase (days : List DayV2) (id : String) (phase : String) : List DayV2 :=
  days.map (fun d => if d.phase = phase then addModule d id else d)

/-- Rule block 1 of `applyRules`: add the sleep tracker daily. -/
def ruleGlobal (dr : List DayV2 × List String) : List DayV2 × List String :=
  (addModuleEvery dr.1 "track_sleep", dr.2 ++ ["global:add_track_sleep_daily"])

/-- Rule block 2 of `applyRules`: region-driven swelling-tracker frequency. -/
def ruleRegion (recovery_region : Option String) (dr : List DayV2 × List String) :
    List DayV2 × List String :=
  match recovery_region with
  | some r =>
      let rules := dr.2 ++ [s!"region:{r}"]
      if r = "leg_foot" ∨ r = "face_neck" then
        (addModuleEvery dr.1 "track_swelling", rules ++ ["region:add_track_swelling_daily"])
      else if r = "arm_hand" then
        (addModuleInPhase dr.1 "track_swelling" "early", rules ++ ["region:add_track_swelling_early"])
      else if r = "torso" then
        (addModuleInPhase dr.1 "track_swelling" "early", rules ++ ["region:add_track_swelling_early"])
      else (dr.1, rules)
  | none => dr

/-- Rule block 3 of `applyRules`: incision status (wound education + infection
red flags). -/
def ruleIncision (incision_status : Option String) (dr : List DayV2 × List String) :
    List DayV2 × List String :=
  match incision_status with
  | some s =>
      let rules := dr.2 ++ [s!"incision:{s}"]
      let days := addModuleInPhase dr.1 "edu_wound" "early"
      let days := addModuleInPhase days "edu_wound" "mid"
      let days := addModuleInPhase days "rf_infection" "early"
      if s = "open_wound" ∨ s = "drains_present" then
        (addModuleInPhase days "rf_infection" "mid", rules ++ ["incision:rf_infection_early_mid"])
      else
        (days, rules ++ ["incision:rf_infection_early"])
  | none => dr

/-- Rule block 4 of `applyRules`: mobility-impact education emphasis. -/
def ruleMobility (mobility_impact : Option String) (dr : List DayV2 × List String) :
    List DayV2 × List String :=
  match mobility_impact with
  | some m =>
      let rules := dr.2 ++ [s!"mobility:{m}"]
      if m = "limited" ∨ m = "non_weight_bearing" then
        (addModuleInPhase dr.1 "edu_mobility" "mid", rules ++ ["mobility:add_edu_mobility_mid"])
      else (dr.1, rules)
  | none => dr

/-- Rule block 5 of `applyRules`: escalating discomfort red-flag emphasis. -/
def ruleDiscomfort (discomfort_pattern : Option String) (dr : List DayV2 × List String) :
    List DayV2 × List String :=
  match discomfort_pattern with
  | some p =>
      let rules := dr.2 ++ [s!"discomfort:{p}"]
      if p = "escalating" then
        let days := addModuleInPhase dr.1 "rf_worsening" "early"
        (addModuleInPhase days "rf_worsening" "mid", rules ++ ["discomfort:rf_worsening_early_mid"])
      else (dr.1, rules)
  | none => dr

/-- Rule block 6 of `applyRules`: follow-up education on the reminder days. -/
def ruleFollowUp (follow_up_expectation : Option String) (dr : List DayV2 × List String) :
    List DayV2 × List String :=
  match follow_up_expectation with
  | some f =>
      let rules := dr.2 ++ [s!"followup:{f}"]
      let days := if f = "within_7_days" then addModuleOnDays dr.1 "edu_followup" [5, 6] else dr.1
      let days := if f = "within_14_days" then addModuleOnDays days "edu_followup" [12, 13] else days
      let days := if f = "within_30_days" then addModuleOnDays days "edu_followup" [19, 20] else days
      (days, rules ++ ["followup:add_edu_followup_reminder_days"])
  | none => dr

/-- Rule block 7 of `applyRules`: extended-duration late-phase education. -/
def ruleDuration (recovery_duration : Option String) (dr : List DayV2 × List String) :
    List DayV2 × List String :=
  match recovery_duration with
  | some d =>
      let rules := dr.2 ++ [s!"duration:{d}"]
      if d = "extended_22_plus" then
        (addModuleInPhase dr.1 "edu_longterm" "late", rules ++ ["duration:add_edu_longterm_late"])
      else (dr.1, rules)
  | none => dr

/-- `applyRules` from `generatePlan.ts`: the seven numbered rule blocks applied
in their fixed source order.  The source mutates `days` and `appliedRules` in
place; here each block is a stage threading the pair through.  Returns the
transformed days together with the applied-rules trace. -/
def applyRules (days : List DayV2) (config : Json) : List DayV2 × List String :=
  let recovery_region := getStr config "recovery_region"
  let recovery_duration := getStr config "recovery_duration"
  let mobility_impact := getStr config "mobility_impact"
  let incision_status := getStr config "incision_status"
  let discomfort_pattern := getStr config "discomfort_pattern"
  let follow_up_expectation := getStr config "follow_up_expectation"
  ruleDuration recovery_duration
    (ruleFollowUp follow_up_expectation
      (ruleDiscomfort discomfort_pattern
        (ruleMobility mobility_impact
          (ruleIncision incision_status
            (ruleRegion recovery_region
              (ruleGlobal (days, [])))))))


/-! ## Clinic override enforcement (`enforceClinicOverrides.ts`) -/

/-- The structured audit events of `enforceClinicOverrides.ts` (`AuditEvent`).
The `issues` payload of the invalid-policy event is abstracted away. -/
inductive AuditEvent where
  | overridesInvalid (message : String)
  | requireAdded (day : Nat) (moduleId : String) (reason : String)
  | forbidRemoved (day : Nat) (moduleId : String) (reason : String)
  | capTrimmed (day : Nat) (removed : List String) (maxPerDay : Int) (reason : String)
  | unknownModuleIgnored (moduleId : String) (reason : String)
deriving DecidableEq, Repr

/-- `requiredByPhase` sub-object of the parsed `ClinicOverridesSchema`. -/
structure RequiredByPhase where
  early : Option (List String)
  mid : Option (List String)
  late : Option (List String)
deriving DecidableEq, Repr

/-- The parsed `ClinicOverrides` data (zod `z.infer` of `ClinicOverridesSchema`). -/
structure ClinicOverrides where
  version : Option Int
  note : Option String
  requiredModuleIds : Option (List String)
  forbiddenModuleIds : Option (List String)
  requiredByPhase : Option RequiredByPhase
  requiredByDay : Option (List (String × List String))
  maxModulesPerDay : Option Int
deriving DecidableEq, Repr

/-- zod `z.array(z.string())`: succeeds only when every element is a string. -/
def parseStringList (j : Json) : Option (List String) :=
  match j with
  | .arr xs =>
      if xs.all (fun x => match x with | .str _ => true | _ => false) then some (strElems xs)
      else none
  | _ => none

/-- An optional schema field: absent is fine, present must parse. -/
def parseOptField {α : Type} (v : Option Json) (f : Json → Option α) : Option (Option α) :=
  match v with
  | none => some none
  | some j => (f j).map some

/-- zod `z.number().int().positive()` (integrality is inherent to the model). -/
def parsePositiveInt (j : Json) : Option Int :=
  match j with
  | .num n => if 0 < n then some n else none
  | _ => none

/-- zod `z.string()`. -/
def parseString (j : Json) : Option String :=
  match j with
  | .str s => some s
  | _ => none

/-- zod sub-schema for `requiredByPhase` (non-strict object: unknown keys are
stripped). -/
def parseRequiredByPhase (j : Json) : Option RequiredByPhase :=
  match j with
  | .obj fields => do
      let early ← parseOptField (lookupFields fields "early") parseStringList
      let mid ← parseOptField (lookupFields fields "mid") parseStringList
      let late ← parseOptField (lookupFields fields "late") parseStringList
      pure { early, mid, late }
  | _ => none

/-- zod `z.record(z.array(z.string()))` for `requiredByDay`. -/
def parseRequiredByDay (j : Json) : Option (List (String × List String)) :=
  match j with
  | .obj fields => fields.mapM (fun p => (parseStringList p.2).map (fun l => (p.1, l)))
  | _ => none

/-- zod `z.number().int().min(1).max(50)` for `maxModulesPerDay`. -/
def parseMaxModulesPerDay (j : Json) : Option Int :=
  match j with
  | .num n => if 1 ≤ n ∧ n ≤ 50 then some n else none
  | _ => none

/-- The keys `ClinicOverridesSchema` accepts (the schema is `.strict()`). -/
def clinicOverrideKeys : List String :=
  ["version", "note", "requiredModuleIds", "forbiddenModuleIds", "requiredByPhase",
   "requiredByDay", "maxModulesPerDay"]

/-- `ClinicOverridesSchema.safeParse`: `none` models a failed validation. -/
def parseClinicOverrides (j : Json) : Option ClinicOverrides :=
  match j with
  | .obj fields =>
      if fields.all (fun p => clinicOverrideKeys.contains p.1) then do
        let version ← parseOptField (lookupFields fields "version") parsePositiveInt
        let note ← parseOptField (lookupFields fields "note") parseString
        let requiredModuleIds ← parseOptField (lookupFields fields "requiredModuleIds") parseStringList
        let forbiddenModuleIds ← parseOptField (lookupFields fields "forbiddenModuleIds") parseStringList
        let requiredByPhase ← parseOptField (lookupFields fields "requiredByPhase") parseRequiredByPhase
        let requiredByDay ← parseOptField (lookupFields fields "requiredByDay") parseRequiredByDay
        let maxModulesPerDay ← parseOptField (lookupFields fields "maxModulesPerDay") parseMaxModulesPerDay
        pure { version, note, requiredModuleIds, forbiddenModuleIds, requiredByPhase,
               requiredByDay, maxModulesPerDay }
      else none
  | _ => none

/-- `uniqPreserveOrder` from `enforceClinicOverrides.ts`. -/
def uniqPreserveOrder (ids : List String) : List String :=
  ids.foldl (fun out id => if out.contains id then out else out ++ [id]) []

/-- `removeAll` from `enforceClinicOverrides.ts` (the `Set` argument is kept as
its underlying list). -/
def removeAll (ids : List String) (toRemove : List String) : List String :=
  ids.filter (fun id => ¬ toRemove.contains id)

/-- `addAll` from `enforceClinicOverrides.ts`. -/
def addAll (ids : List String) (toAdd : List String) : List String :=
  uniqPreserveOrder (ids ++ toAdd)

/-- Result of `stableCap`. -/
structure CapResult where
  kept : List String
  removed : List String
deriving DecidableEq, Repr

/-- `stableCap` from `enforceClinicOverrides.ts` (`slice(0, max)` / `slice(max)`). -/
def stableCap (ids : List String) (maxPerDay : Nat) : CapResult :=
  if ids.length ≤ maxPerDay then { kept := ids, removed := [] }
  else { kept := ids.take maxPerDay, removed := ids.drop maxPerDay }

/-- `normalizeDayNumber` from `enforceClinicOverrides.ts` (`Number` coercion of
strings/containers is not modelled; engine-produced days are numbers). -/
def normalizeDayNumber (v : Option Json) : Nat :=
  match v with
  | some (.num n) => (max 0 (min 1000 n)).toNat
  | some (.bool true) => 1
  | _ => 0

/-- `normalizePhase` from `enforceClinicOverrides.ts`. -/
def normalizePhase (v : Option Json) : String :=
  match v with
  | some (.str s) => if s = "early" ∨ s = "mid" ∨ s = "late" then s else ""
  | _ => ""

/-- Truthiness test `modulesDict[id]` used by `filterKnown` and the defensive
re-filter. -/
def moduleKnown (lib : List (String × Json)) (id : String) : Bool :=
  match lookupFields lib id with
  | some v => v.truthy
  | none => false

/-- `filterKnown` from `enforceClinicOverrides.ts`: keep ids with truthy module
entries, audit the rest, dedupe the survivors. -/
def filterKnown (lib : List (String × Json)) (list : List String) (reason : String) :
    List String × List AuditEvent :=
  let step := list.foldl
    (fun (acc : List String × List AuditEvent) id =>
      if moduleKnown lib id then (acc.1 ++ [id], acc.2)
      else (acc.1, acc.2 ++ [.unknownModuleIgnored id reason]))
    ([], [])
  (uniqPreserveOrder step.1, step.2)

/-- The per-invocation enforcement context: the pre-filtered policy data the
day loop of `enforceClinicOverrides` closes over. -/
structure EnfCtx where
  forbidden : List String
  requiredGlobalKnown : List String
  reqEarly : List String
  reqMid : List String
  reqLate : List String
  requiredByDayKnown : List (String × List String)
  maxModulesPerDay : Option Int
  lib : List (String × Json)
deriving Repr

/-- `requiredByPhaseKnown[phase]` selection in the day loop. -/
def phaseReqOf (ctx : EnfCtx) (phase : String) : List String :=
  if phase = "early" then ctx.reqEarly
  else if phase = "mid" then ctx.reqMid
  else if phase = "late" then ctx.reqLate
  else []

/-- `requiredByDayKnown[String(dayNum)] ?? []` selection in the day loop. -/
def dayReqOf (ctx : EnfCtx) (dayNum : Nat) : List String :=
  ((ctx.requiredByDayKnown.find? (fun p => p.1 = toString dayNum)).map (fun p => p.2)).getD []

/-- Step 1 of the day loop: remove forbidden modules, auditing each removal. -/
def stepForbid (forbidden : List String) (dayNum : Nat) (m : List String) :
    List String × List AuditEvent :=
  if forbidden ≠ [] then
    let after := removeAll m forbidden
    (after,
     (m.filter (fun id => ¬ after.contains id)).map
       (fun id => .forbidRemoved dayNum id "forbiddenModuleIds"))
  else (m, [])

/-- Steps 2-4 of the day loop: add a required list, auditing each new id. -/
def stepRequire (req : List String) (dayNum : Nat) (reason : String) (m : List String) :
    List String × List AuditEvent :=
  if req ≠ [] then
    (addAll m req,
     (req.filter (fun id => ¬ m.contains id)).map (fun id => .requireAdded dayNum id reason))
  else (m, [])

/-- The day loop of `enforceClinicOverrides` up to and including step 5.5
(the final pre-cap module-id list of a day). -/
def preCapIds (ctx : EnfCtx) (dayNum : Nat) (phase : String) (original : List String) :
    List String :=
  let s1 := stepForbid ctx.forbidden dayNum (uniqPreserveOrder original)
  let s2 := stepRequire ctx.requiredGlobalKnown dayNum "requiredModuleIds" s1.1
  let s3 := stepRequire (phaseReqOf ctx phase) dayNum (s!"requiredByPhase.{phase}") s2.1
  let s4 := stepRequire (dayReqOf ctx dayNum) dayNum (s!"requiredByDay.{dayNum}") s3.1
  let m5 := s4.1.filter (fun id => moduleKnown ctx.lib id)
  if ctx.forbidden ≠ [] then removeAll m5 ctx.forbidden else m5

/-- The final module-id list of a day after the cap step (step 6) has been
applied on top of the pre-cap list. -/
def finalIds (ctx : EnfCtx) (dayNum : Nat) (phase : String) (original : List String) :
    List String :=
  let pre := preCapIds ctx dayNum phase original
  match ctx.maxModulesPerDay with
  | some n => if 0 < n then (stableCap pre n.toNat).kept else pre
  | none => pre

/-- One iteration of the `days.map` loop of `enforceClinicOverrides`: the
rewritten day object together with the audit events it emitted. -/
def enforceDay (ctx : EnfCtx) (dayJson : Json) : Json × List AuditEvent :=
  let dayNum := normalizeDayNumber (dayJson.lookup "day")
  let phase := normalizePhase (dayJson.lookup "phase")
  let original := strElems (Json.asArray ((dayJson.lookup "moduleIds").getD .null))
  let s1 := stepForbid ctx.forbidden dayNum (uniqPreserveOrder original)
  let s2 := stepRequire ctx.requiredGlobalKnown dayNum "requiredModuleIds" s1.1
  let s3 := stepRequire (phaseReqOf ctx phase) dayNum (s!"requiredByPhase.{phase}") s2.1
  let s4 := stepRequire (dayReqOf ctx dayNum) dayNum (s!"requiredByDay.{dayNum}") s3.1
  -- steps 5 and 5.5 (defensive known-id filter, then forbidden-wins re-removal);
  -- `preCapIds` recomputes the same step chain, so its value is `s4.1` filtered
  -- and re-filtered exactly as the source does
  let m55 := preCapIds ctx dayNum phase original
  let cap : List String × List AuditEvent :=
    match ctx.maxModulesPerDay with
    | some n =>
        if 0 < n then
          let c := stableCap m55 n.toNat
          (c.kept,
           if c.removed = [] then []
           else [.capTrimmed dayNum c.removed n "maxModulesPerDay"])
        else (m55, [])
    | none => (m55, [])
  let phaseJson : Option Json := if phase ≠ "" then some (.str phase) else dayJson.lookup "phase"
  let d1 := dayJson.setField "day" (.num (dayNum : Int))
  let d2 := match phaseJson with
    | some pj => d1.setField "phase" pj
    | none => d1
  let d3 := d2.setField "moduleIds" (.arr (cap.1.map Json.str))
  (d3, s1.2 ++ s2.2 ++ s3.2 ++ s4.2 ++ cap.2)

/-- The pre-filtering of the policy's required lists against the module
dictionary (`filterKnown` call sites of `enforceClinicOverrides`), assembling
the enforcement context and the unknown-module audit events. -/
def buildCtx (ov : ClinicOverrides) (lib : List (String × Json)) : EnfCtx × List AuditEvent :=
  let fg := filterKnown lib (ov.requiredModuleIds.getD []) "requiredModuleIds"
  let fe := filterKnown lib ((ov.requiredByPhase.bind (fun r => r.early)).getD []) "requiredByPhase.early"
  let fm := filterKnown lib ((ov.requiredByPhase.bind (fun r => r.mid)).getD []) "requiredByPhase.mid"
  let fl := filterKnown lib ((ov.requiredByPhase.bind (fun r => r.late)).getD []) "requiredByPhase.late"
  let byDay : List (String × List String) × List AuditEvent :=
    match ov.requiredByDay with
    | some entries =>
        entries.foldl
          (fun acc p =>
            let f := filterKnown lib p.2 (s!"requiredByDay.{p.1}")
            (acc.1 ++ [(p.1, f.1)], acc.2 ++ f.2))
          ([], [])
    | none => ([], [])
  ({ forbidden := ov.forbiddenModuleIds.getD []
     requiredGlobalKnown := fg.1
     reqEarly := fe.1
     reqMid := fm.1
     reqLate := fl.1
     requiredByDayKnown := byDay.1
     maxModulesPerDay := ov.maxModulesPerDay
     lib := lib },
   fg.2 ++ fe.2 ++ fm.2 ++ fl.2 ++ byDay.2)

/-- The plan-shape compatibility test of `enforceClinicOverrides`
(`isPlainObject(plan) && Array.isArray(plan.days) && isPlainObject(plan.modules)`). -/
def planShapeOk (plan : Json) : Bool :=
  plan.isPlainObject
    && (match plan.lookup "days" with | some (.arr _) => true | _ => false)
    && (match plan.lookup "modules" with | some (.obj _) => true | _ => false)

/-- The `meta` rewrite of `enforceClinicOverrides`
(`{...plan.meta, clinicOverrides: {version, note}}`). -/
def metaUpdated (plan : Json) (ov : ClinicOverrides) : Json :=
  Json.setField ((plan.lookup "meta").getD .null) "clinicOverrides"
    (.obj [("version", match ov.version with | some n => .num n | none => .null),
           ("note", match ov.note with | some s => .str s | none => .null)])

/-- `enforceClinicOverrides` from `enforceClinicOverrides.ts`.  The `auditPush`
callback is modelled by returning the pushed events in order. -/
def enforceClinicOverrides (plan : Json) (overridesJson : Option Json) :
    Json × List AuditEvent :=
  match overridesJson with
  | none => (plan, [])
  | some oj =>
      if oj.truthy = false then (plan, [])
      else
        match parseClinicOverrides oj with
        | none =>
            (plan, [.overridesInvalid "Clinic overridesJson failed validation; ignoring overrides."])
        | some overrides =>
            if planShapeOk plan = false then
              (plan, [.overridesInvalid "Plan shape is not compatible with enforcement; ignoring overrides."])
            else
              let lib := match plan.lookup "modules" with | some (.obj fs) => fs | _ => []
              match plan.lookup "schemaVersion" with
              | some (.num 2) =>
                  let built := buildCtx overrides lib
                  let ctx := built.1
                  let preEvents := built.2
                  let days := match plan.lookup "days" with | some (.arr ds) => ds | _ => []
                  let results := days.map (enforceDay ctx)
                  let newDays := results.map (fun r => r.1)
                  let dayEvents := (results.map (fun r => r.2)).flatten
                  let newPlan :=
                    (plan.setField "days" (.arr newDays)).setField "meta" (metaUpdated plan overrides)
                  (newPlan, preEvents ++ dayEvents)
              | _ => (plan, [])

/-! ## Plan generation (`generatePlan.ts`) -/

/-- `GeneratePlanInput` from `generatePlan.ts`; the two `unknown` JSON inputs
that may be `undefined` are `Option Json`. -/
structure GeneratePlanInput where
  templatePlanJson : Option Json
  clinicOverridesJson : Option Json
  config : Json
  engineVersion : String
  category : String

/-- `GeneratePlanOutput` from `generatePlan.ts`. -/
structure GeneratePlanOutput where
  planJson : Json
  configJson : Json

/-- Serialization of a `DayV2` value as it sits inside `planJson`. -/
def dayToJson (d : DayV2) : Json :=
  .obj [("day", .num (d.day : Int)), ("phase", .str d.phase), ("title", .str d.title),
        ("moduleIds", .arr (d.moduleIds.map Json.str)),
        ("boxItems", .arr (d.boxItems.map Json.str))]

/-- Serialization of an audit event as pushed into `meta.clinicAuditEvents`. -/
def auditEventToJson : AuditEvent → Json
  | .overridesInvalid m =>
      .obj [("type", .str "clinic_overrides_invalid"), ("message", .str m)]
  | .requireAdded d id r =>
      .obj [("type", .str "clinic_require_added"), ("day", .num (d : Int)),
            ("moduleId", .str id), ("reason", .str r)]
  | .forbidRemoved d id r =>
      .obj [("type", .str "clinic_forbid_removed"), ("day", .num (d : Int)),
            ("moduleId", .str id), ("reason", .str r)]
  | .capTrimmed d rem mx r =>
      .obj [("type", .str "clinic_cap_trimmed"), ("day", .num (d : Int)),
            ("removed", .arr (rem.map Json.str)), ("max", .num mx), ("reason", .str r)]
  | .unknownModuleIgnored id r =>
      .obj [("type", .str "clinic_unknown_module_ignored"), ("moduleId", .str id),
            ("reason", .str r)]

/-- The post-enforcement module resolution of `generatePlan`
(`{...d, modulesResolved}`; unresolved / `null` entries are dropped). -/
def resolveDay (lib : List (String × Json)) (d : Json) : Json :=
  let moduleIds := strElems (Json.asArray ((d.lookup "moduleIds").getD .null))
  let modulesResolved := moduleIds.filterMap
    (fun id =>
      match lookupFields lib id with
      | some .null => none
      | some v => some v
      | none => none)
  d.setField "modulesResolved" (.arr modulesResolved)

/-- `some (.arr _)` test used by the meta-contract fixups. -/
def isArrOpt : Option Json → Bool
  | some (.arr _) => true
  | _ => false

/-- `some (.obj _)` test used by the meta-contract fixups. -/
def isObjOpt : Option Json → Bool
  | some (.obj _) => true
  | _ => false

/-- The `base` local of `generatePlan`: the template object's fields, or empty
when `templatePlanJson` is absent / not a plain object. -/
def templateBase (t : Option Json) : List (String × Json) :=
  match t with
  | some (.obj fs) => fs
  | _ => []

/-- The normalized template days of `generatePlan`
(`asArray(base.days).map(normalizeDayV2)`). -/
def templateDays (input : GeneratePlanInput) : List DayV2 :=
  (Json.asArray ((lookupFields (templateBase input.templatePlanJson) "days").getD .null)).enum.map
    (fun p => normalizeDayV2 p.2 p.1)

/-- The final per-day values placed into `planJson.days` by `generatePlan`:
normalized 21-day skeleton, rules applied, per-day `dedupe`. -/
def planDaysV2 (input : GeneratePlanInput) : List DayV2 :=
  (applyRules (ensure21Days (templateDays input)) input.config).1.map
    (fun d => { d with moduleIds := dedupe d.moduleIds })

/-- The pre-enforcement `planJson` value composed by `generatePlan` (the schema
v2 contract object). -/
def basePlanJson (input : GeneratePlanInput) : Json :=
  let base := templateBase input.templatePlanJson
  let hasClinicOverrides :=
    match input.clinicOverridesJson with
    | some v => v.truthy
    | none => false
  let days := planDaysV2 input
  let appliedRules := (applyRules (ensure21Days (templateDays input)) input.config).2
  .obj [
    ("title", match lookupFields base "title" with | some (.str s) => .str s | _ => .str "Recovery Plan"),
    ("disclaimer", match lookupFields base "disclaimer" with | some (.str s) => .str s | _ => .str ""),
    ("schemaVersion", .num 2),
    ("modules", match lookupFields base "modules" with | some .null => .obj [] | some v => v | none => .obj []),
    ("clinicPolicy", .obj [("present", .bool hasClinicOverrides)]),
    ("days", .arr (days.map dayToJson)),
    ("meta", .obj [
      ("engineVersion", .str input.engineVersion),
      ("category", .str input.category),
      ("schemaVersion", .num 2),
      ("config", input.config),
      ("appliedRules", .arr ((dedupe appliedRules).map Json.str)),
      ("clinicOverrides", .obj [("version", .null), ("note", .null)]),
      ("clinicAuditEvents", .arr [])])]

/-- The enforcement stage of `generatePlan`: the enforced plan value together
with the collected clinic audit events. -/
def enforcedPlan (input : GeneratePlanInput) : Json × List AuditEvent :=
  enforceClinicOverrides (basePlanJson input) input.clinicOverridesJson

/-- `generatePlan` from `generatePlan.ts`: normalize, apply rules, enforce
clinic overrides, resolve modules, attach audit metadata. -/
def generatePlan (input : GeneratePlanInput) : GeneratePlanOutput :=
  let enforcedPlanJson := (enforcedPlan input).1
  let clinicAuditEvents := (enforcedPlan input).2
  let enforcedModulesLib :=
    match enforcedPlanJson.lookup "modules" with
    | some (.obj fs) => fs
    | _ => []
  let enforcedDays := Json.asArray ((enforcedPlanJson.lookup "days").getD .null)
  let p1 := enforcedPlanJson.setField "days" (.arr (enforcedDays.map (resolveDay enforcedModulesLib)))
  -- Attach audit events for debugging + proof
  let p2 := p1.setField "meta"
    (Json.setField ((p1.lookup "meta").getD .null) "clinicAuditEvents"
      (.arr (clinicAuditEvents.map auditEventToJson)))
  -- Ensure meta contract always holds
  let p3 :=
    if isObjOpt ((p2.lookup "meta").bind (fun m => m.lookup "clinicOverrides")) then p2
    else
      p2.setField "meta"
        (Json.setField ((p2.lookup "meta").getD .null) "clinicOverrides"
          (.obj [("version", .null), ("note", .null)]))
  let p4 :=
    if isArrOpt ((p3.lookup "meta").bind (fun m => m.lookup "clinicAuditEvents")) then p3
    else
      p3.setField "meta"
        (Json.setField ((p3.lookup "meta").getD .null) "clinicAuditEvents" (.arr []))
  { planJson := p4, configJson := input.config }

/-! ## Observation helpers used by the theorems -/

/-- The `days` array of a plan value. -/
def planDays (p : Json) : List Json :=
  Json.asArray ((p.lookup "days").getD .null)

/-- The `modules` dictionary of a plan value. -/
def planModules (p : Json) : List (String × Json) :=
  match p.lookup "modules" with
  | some (.obj fs) => fs
  | _ => []

/-- The string module ids of a day object. -/
def dayModuleIds (d : Json) : List String :=
  strElems (Json.asArray ((d.lookup "moduleIds").getD .null))

/-- The `modulesResolved` array of a day object. -/
def dayResolved (d : Json) : List Json :=
  Json.asArray ((d.lookup "modulesResolved").getD .null)

/-- An id resolves in a module dictionary when its entry exists and is not
`null` (the filter of the module-resolution stage). -/
def resolvesIn (lib : List (String × Json)) (id : String) : Bool :=
  match lookupFields lib id with
  | some .null => false
  | some _ => true
  | none => false


/-! ## Statement-level helpers and concrete inputs -/

/-- The `clinic_cap_trimmed` events recorded for a given (normalized) day
number. -/
def isCapEventFor (dayNum : Nat) : AuditEvent → Bool
  | .capTrimmed d _ _ _ => d = dayNum
  | _ => false

/-- The last entry of a day list carrying a given day number (what the
`byDay` map of `ensure21Days` retains, since `Map.set` overwrites). -/
def lastWithDay (ds : List DayV2) (d : Nat) : Option DayV2 :=
  ds.foldl (fun acc x => if x.day = d then some x else acc) none

/-- The configuration of spec Example A. -/
def exampleAConfig : Json := .obj [
  ("recovery_region", .str "leg_foot"),
  ("incision_status", .str "open_wound"),
  ("discomfort_pattern", .str "escalating"),
  ("follow_up_expectation", .str "within_7_days"),
  ("mobility_impact", .str "limited"),
  ("recovery_duration", .str "standard_15_21")]

/-- Spec Example A run against the base (empty) template with no clinic
override policy. -/
def exampleAInput : GeneratePlanInput :=
  { templatePlanJson := some (.obj [])
    clinicOverridesJson := none
    config := exampleAConfig
    engineVersion := "v1"
    category := "general_outpatient" }

/-- A generation request whose template is absent (`undefined`), as the
clinic-preview call site passes it. -/
def missingTemplateInput : GeneratePlanInput :=
  { templatePlanJson := none
    clinicOverridesJson := none
    config := .obj []
    engineVersion := "v1"
    category := "general_outpatient" }

/-- A generation request with an empty template object and empty config. -/
def emptyTemplateInput : GeneratePlanInput :=
  { templatePlanJson := some (.obj [])
    clinicOverridesJson := none
    config := .obj []
    engineVersion := "v1"
    category := "general_outpatient" }

/-- The `clinic_cap_trimmed` events a single day loop iteration emits (empty
when no cap is configured or nothing was trimmed). -/
def dayCapEvents (ctx : EnfCtx) (d : Json) : List AuditEvent :=
  let dayNum := normalizeDayNumber (d.lookup "day")
  let pre := preCapIds ctx dayNum (normalizePhase (d.lookup "phase")) (dayModuleIds d)
  match ctx.maxModulesPerDay with
  | some n =>
      if 0 < n then
        (if (stableCap pre n.toNat).removed = [] then []
         else [.capTrimmed dayNum (stableCap pre n.toNat).removed n "maxModulesPerDay"])
      else []
  | none => []

/-- Spec Example B policy: the same module both forbidden and required. -/
def exampleBPolicy : Json := .obj [
  ("forbiddenModuleIds", .arr [.str "track_swelling"]),
  ("requiredModuleIds", .arr [.str "track_swelling"])]

/-- The parse of `exampleBPolicy`. -/
def exampleBParsed : ClinicOverrides :=
  { version := none, note := none
    requiredModuleIds := some ["track_swelling"]
    forbiddenModuleIds := some ["track_swelling"]
    requiredByPhase := none, requiredByDay := none, maxModulesPerDay := none }

/-- A minimal schema-v2 plan whose single day schedules `track_swelling`. -/
def exampleBPlan : Json := .obj [
  ("schemaVersion", .num 2),
  ("modules", .obj [("track_swelling", .obj [("id", .str "track_swelling")])]),
  ("days", .arr [.obj [("day", .num 0), ("phase", .str "early"),
    ("moduleIds", .arr [.str "track_swelling"])]]),
  ("meta", .obj [])]

/-- Spec Example C policy: `maxModulesPerDay` of 2. -/
def exampleCPolicy : Json := .obj [("maxModulesPerDay", .num 2)]

/-- The parse of `exampleCPolicy`. -/
def exampleCParsed : ClinicOverrides :=
  { version := none, note := none
    requiredModuleIds := none, forbiddenModuleIds := none
    requiredByPhase := none, requiredByDay := none, maxModulesPerDay := some 2 }

/-- A schema-v2 plan whose single day resolves five known modules. -/
def exampleCPlan : Json := .obj [
  ("schemaVersion", .num 2),
  ("modules", .obj [("a", .obj []), ("b", .obj []), ("c", .obj []), ("d", .obj []),
    ("e", .obj [])]),
  ("days", .arr [.obj [("day", .num 0), ("phase", .str "early"),
    ("moduleIds", .arr [.str "a", .str "b", .str "c", .str "d", .str "e"])]]),
  ("meta", .obj [])]

/-- A policy value rejected by the schema (unknown key; the schema is strict). -/
def invalidPolicy : Json := .obj [("bogus", .num 1)]

/-- `exampleBPlan` with `schemaVersion` 1 (the silent-skip path of C10). -/
def v1Plan : Json := .obj [
  ("schemaVersion", .num 1),
  ("modules", .obj [("track_swelling", .obj [("id", .str "track_swelling")])]),
  ("days", .arr [.obj [("day", .num 0), ("phase", .str "early"),
    ("moduleIds", .arr [.str "track_swelling"])]]),
  ("meta", .obj [])]

/-- Two template entries sharing day 2 (for the last-occurrence-wins claim). -/
def dupDayFirst : DayV2 :=
  { day := 2, phase := "early", title := "first", moduleIds := ["x"], boxItems := [] }

/-- The later entry sharing day 2. -/
def dupDaySecond : DayV2 :=
  { day := 2, phase := "late", title := "second", moduleIds := ["y"], boxItems := [] }

/-- Day 0 of the plan generated from the empty template with empty config. -/
def c3Day0 : Json := .obj [
  ("day", .num 0), ("phase", .str "early"), ("title", .str "Day 0: Getting organized"),
  ("moduleIds", .arr [.str "checkin_overall", .str "track_pain", .str "rf_emergency",
    .str "rf_worsening", .str "track_sleep"]),
  ("boxItems", .arr [.str "box_gauze", .str "box_tape", .str "box_coldpack"]),
  ("modulesResolved", .arr [])]

/-- Day 0 of `exampleBPlan` after enforcing `exampleBPolicy`. -/
def c4EnforcedDay0 : Json := .obj [
  ("day", .num 0), ("phase", .str "early"), ("moduleIds", .arr [])]

/-- The single (pre-enforcement) day of `exampleCPlan`. -/
def exampleCDay0 : Json := .obj [("day", .num 0), ("phase", .str "early"),
  ("moduleIds", .arr [.str "a", .str "b", .str "c", .str "d", .str "e"])]

/-- The day of `exampleCPlan` after enforcing `exampleCPolicy` (capped to 2). -/
def c6EnforcedDay0 : Json := .obj [("day", .num 0), ("phase", .str "early"),
  ("moduleIds", .arr [.str "a", .str "b"])]

/-- Two day lists of equal length whose entries agree pointwise on `day` and
`phase`. -/
def sameSkeleton (ds es : List DayV2) : Prop :=
  ds.length = es.length ∧
  ∀ i : Nat, (ds[i]?).map DayV2.day = (es[i]?).map DayV2.day ∧
       (ds[i]?).map DayV2.phase = (es[i]?).map DayV2.phase

/-! ## Basic lemmas about the JSON model -/

theorem find?_map_replace (fields : List (String × Json)) (k k' : String) (v : Json)
    (h : k' ≠ k) :
    (fields.map (fun p => if p.1 = k then (k, v) else p)).find? (fun p => p.1 = k') =
      fields.find? (fun p => p.1 = k') := by
  induction fields with
  | nil => rfl
  | cons p ps ih =>
      by_cases hp : p.1 = k
      · rw [List.map_cons, if_pos hp]
        rw [List.find?_cons_of_neg _ (by simp [Ne.symm h]),
            List.find?_cons_of_neg _ (by simp [hp]; exact fun hh => h hh.symm)]
        exact ih
      · rw [List.map_cons, if_neg hp]
        by_cases hq : p.1 = k'
        · rw [List.find?_cons_of_pos _ (by simp [hq]), List.find?_cons_of_pos _ (by simp [hq])]
        · rw [List.find?_cons_of_neg _ (by simp [hq]), List.find?_cons_of_neg _ (by simp [hq])]
          exact ih

theorem find?_map_replace_self (fields : List (String × Json)) (k : String) (v : Json)
    (h : fields.any (fun p => p.1 = k)) :
    (fields.map (fun p => if p.1 = k then (k, v) else p)).find? (fun p => p.1 = k) =
      some (k, v) := by
  induction fields with
  | nil => simp at h
  | cons p ps ih =>
      by_cases hp : p.1 = k
      · rw [List.map_cons, if_pos hp, List.find?_cons_of_pos _ (by simp)]
      · rw [List.map_cons, if_neg hp, List.find?_cons_of_neg _ (by simp [hp])]
        exact ih (by simpa [hp] using h)

theorem lookup_setField_self (j : Json) (k : String) (v : Json) :
    (j.setField k v).lookup k = some v := by
  cases j with
  | obj fields =>
      by_cases h : fields.any (fun p => p.1 = k)
      · simp only [Json.setField, h, if_true, Json.lookup, find?_map_replace_self fields k v h,
          Option.map_some]
        rfl
      · have h2 : (fields.any fun p => decide (p.1 = k)) = false := by
          cases hX : (fields.any fun p => decide (p.1 = k)) with
          | false => rfl
          | true => exact absurd hX h
        have hnone : fields.find? (fun p => (p.1 = k : Bool)) = none := by
          rw [List.find?_eq_none]
          intro x hx hxk
          exact h (List.any_eq_true.mpr ⟨x, hx, hxk⟩)
        simp only [Json.setField, h2, Bool.false_eq_true, if_false, Json.lookup,
          List.find?_append, hnone, Option.none_or]
        rw [List.find?_cons_of_pos _ (by simp)]
        rfl
  | null => simp [Json.setField, Json.lookup, List.find?]
  | bool b => simp [Json.setField, Json.lookup, List.find?]
  | num n => simp [Json.setField, Json.lookup, List.find?]
  | str s => simp [Json.setField, Json.lookup, List.find?]
  | arr xs => simp [Json.setField, Json.lookup, List.find?]

theorem lookup_setField_ne (j : Json) (k k' : String) (v : Json) (h : k' ≠ k) :
    (j.setField k v).lookup k' = j.lookup k' := by
  cases j with
  | obj fields =>
      by_cases hany : fields.any (fun p => p.1 = k)
      · simp only [Json.setField, hany, if_true, Json.lookup,
          find?_map_replace fields k k' v h]
      · have h2 : (fields.any fun p => decide (p.1 = k)) = false := by
          cases hX : (fields.any fun p => decide (p.1 = k)) with
          | false => rfl
          | true => exact absurd hX hany
        simp only [Json.setField, h2, Bool.false_eq_true, if_false, Json.lookup,
          List.find?_append]
        rw [List.find?_cons_of_neg _ (by simp [Ne.symm h]), List.find?_nil, Option.or_none]
  | null => simp [Json.setField, Json.lookup, List.find?, Ne.symm h]
  | bool b => simp [Json.setField, Json.lookup, List.find?, Ne.symm h]
  | num n => simp [Json.setField, Json.lookup, List.find?, Ne.symm h]
  | str s => simp [Json.setField, Json.lookup, List.find?, Ne.symm h]
  | arr xs => simp [Json.setField, Json.lookup, List.find?, Ne.symm h]

theorem strElems_map_str (l : List String) : strElems (l.map Json.str) = l := by
  induction l with
  | nil => rfl
  | cons x xs ih => simp [strElems, List.filterMap] at ih ⊢; exact ih

theorem planDays_setField (j : Json) (k : String) (v : Json) (h : k ≠ "days") :
    planDays (j.setField k v) = planDays j := by
  rw [planDays, planDays, lookup_setField_ne j k "days" v (fun hh => h hh.symm)]

theorem planModules_setField (j : Json) (k : String) (v : Json) (h : k ≠ "modules") :
    planModules (j.setField k v) = planModules j := by
  rw [planModules, planModules, lookup_setField_ne j k "modules" v (fun hh => h hh.symm)]

theorem planDays_setField_days (j : Json) (ds : List Json) :
    planDays (j.setField "days" (.arr ds)) = ds := by
  rw [planDays, lookup_setField_self]
  rfl

/-! ## Lemmas about the template normalizer -/

theorem ensure21Days_length (ds : List DayV2) : (ensure21Days ds).length = 21 := by
  simp [ensure21Days]

theorem ensure21Days_getElem? (ds : List DayV2) (i : Nat) (h : i < 21) :
    (ensure21Days ds)[i]? =
      some (match mapGet (ds.foldl (fun m d => mapInsert m d.day d) []) i with
            | some existing => { existing with day := i, phase := phaseForDay i }
            | none => defaultDay i) := by
  simp [ensure21Days, List.getElem?_map, List.getElem?_range h]

theorem ensure21Days_day_phase (ds : List DayV2) (i : Nat) (h : i < 21) :
    ((ensure21Days ds)[i]?).map DayV2.day = some i ∧
    ((ensure21Days ds)[i]?).map DayV2.phase = some (phaseForDay i) := by
  rw [ensure21Days_getElem? ds i h]
  cases mapGet (ds.foldl (fun m d => mapInsert m d.day d) []) i <;> simp [defaultDay]

/-! ## Skeleton preservation: the rule stages only touch `moduleIds` -/

theorem sameSkeleton_refl (ds : List DayV2) : sameSkeleton ds ds :=
  ⟨rfl, fun _ => ⟨rfl, rfl⟩⟩

theorem sameSkeleton_trans {a b c : List DayV2}
    (h1 : sameSkeleton a b) (h2 : sameSkeleton b c) : sameSkeleton a c :=
  ⟨h1.1.trans h2.1, fun i =>
    ⟨(h1.2 i).1.trans (h2.2 i).1, (h1.2 i).2.trans (h2.2 i).2⟩⟩

theorem sameSkeleton_map (ds : List DayV2) (f : DayV2 → DayV2)
    (hf : ∀ d, (f d).day = d.day ∧ (f d).phase = d.phase) :
    sameSkeleton ds (ds.map f) := by
  unfold sameSkeleton
  constructor
  · rw [List.length_map]
  · intro i
    rw [List.getElem?_map]
    cases ds[i]? with
    | none => exact ⟨rfl, rfl⟩
    | some d => simp [(hf d).1, (hf d).2]

theorem sameSkeleton_addModuleEvery (ds : List DayV2) (id : String) :
    sameSkeleton ds (addModuleEvery ds id) :=
  sameSkeleton_map ds _ (fun d => ⟨rfl, rfl⟩)

theorem sameSkeleton_addModuleInPhase (ds : List DayV2) (id ph : String) :
    sameSkeleton ds (addModuleInPhase ds id ph) :=
  sameSkeleton_map ds _ (fun d => by
    refine ⟨?_, ?_⟩ <;> split <;> rfl)

theorem sameSkeleton_addModuleOnDays (ds : List DayV2) (id : String) (dayNumbers : List Nat) :
    sameSkeleton ds (addModuleOnDays ds id dayNumbers) :=
  sameSkeleton_map ds _ (fun d => by
    refine ⟨?_, ?_⟩ <;> split <;> rfl)

theorem sameSkeleton_ruleGlobal (dr : List DayV2 × List String) :
    sameSkeleton dr.1 (ruleGlobal dr).1 :=
  sameSkeleton_addModuleEvery _ _

theorem sameSkeleton_ruleRegion (r : Option String) (dr : List DayV2 × List String) :
    sameSkeleton dr.1 (ruleRegion r dr).1 := by
  match r with
  | none => exact sameSkeleton_refl _
  | some s =>
      simp only [ruleRegion]
      split
      · exact sameSkeleton_addModuleEvery _ _
      · split
        · exact sameSkeleton_addModuleInPhase _ _ _
        · split
          · exact sameSkeleton_addModuleInPhase _ _ _
          · exact sameSkeleton_refl _

theorem sameSkeleton_ruleIncision (s : Option String) (dr : List DayV2 × List String) :
    sameSkeleton dr.1 (ruleIncision s dr).1 := by
  match s with
  | none => exact sameSkeleton_refl _
  | some v =>
      simp only [ruleIncision]
      have base := sameSkeleton_trans
        (sameSkeleton_trans (sameSkeleton_addModuleInPhase dr.1 "edu_wound" "early")
          (sameSkeleton_addModuleInPhase _ "edu_wound" "mid"))
        (sameSkeleton_addModuleInPhase _ "rf_infection" "early")
      split
      · exact sameSkeleton_trans base (sameSkeleton_addModuleInPhase _ "rf_infection" "mid")
      · exact base

theorem sameSkeleton_ruleMobility (m : Option String) (dr : List DayV2 × List String) :
    sameSkeleton dr.1 (ruleMobility m dr).1 := by
  match m with
  | none => exact sameSkeleton_refl _
  | some v =>
      simp only [ruleMobility]
      split
      · exact sameSkeleton_addModuleInPhase _ _ _
      · exact sameSkeleton_refl _

theorem sameSkeleton_ruleDiscomfort (p : Option String) (dr : List DayV2 × List String) :
    sameSkeleton dr.1 (ruleDiscomfort p dr).1 := by
  match p with
  | none => exact sameSkeleton_refl _
  | some v =>
      simp only [ruleDiscomfort]
      split
      · exact sameSkeleton_trans (sameSkeleton_addModuleInPhase dr.1 "rf_worsening" "early")
          (sameSkeleton_addModuleInPhase _ "rf_worsening" "mid")
      · exact sameSkeleton_refl _

theorem sameSkeleton_ruleFollowUp (f : Option String) (dr : List DayV2 × List String) :
    sameSkeleton dr.1 (ruleFollowUp f dr).1 := by
  match f with
  | none => exact sameSkeleton_refl _
  | some v =>
      simp only [ruleFollowUp]
      split <;> split <;> split <;>
        first
          | exact sameSkeleton_refl _
          | exact sameSkeleton_addModuleOnDays _ _ _
          | exact sameSkeleton_trans (sameSkeleton_addModuleOnDays _ _ _)
              (sameSkeleton_addModuleOnDays _ _ _)
          | exact sameSkeleton_trans
              (sameSkeleton_trans (sameSkeleton_addModuleOnDays _ _ _)
                (sameSkeleton_addModuleOnDays _ _ _))
              (sameSkeleton_addModuleOnDays _ _ _)

theorem sameSkeleton_ruleDuration (d : Option String) (dr : List DayV2 × List String) :
    sameSkeleton dr.1 (ruleDuration d dr).1 := by
  match d with
  | none => exact sameSkeleton_refl _
  | some v =>
      simp only [ruleDuration]
      split
      · exact sameSkeleton_addModuleInPhase _ _ _
      · exact sameSkeleton_refl _

theorem sameSkeleton_applyRules (ds : List DayV2) (cfg : Json) :
    sameSkeleton ds (applyRules ds cfg).1 := by
  unfold applyRules
  exact sameSkeleton_trans (sameSkeleton_ruleGlobal (ds, []))
    (sameSkeleton_trans (sameSkeleton_ruleRegion _ _)
      (sameSkeleton_trans (sameSkeleton_ruleIncision _ _)
        (sameSkeleton_trans (sameSkeleton_ruleMobility _ _)
          (sameSkeleton_trans (sameSkeleton_ruleDiscomfort _ _)
            (sameSkeleton_trans (sameSkeleton_ruleFollowUp _ _)
              (sameSkeleton_ruleDuration _ _))))))

/-! ## The shape of the composed plan and of enforcement results -/

theorem basePlanJson_lookup_days (input : GeneratePlanInput) :
    (basePlanJson input).lookup "days" = some (.arr ((planDaysV2 input).map dayToJson)) := rfl

theorem basePlanJson_lookup_schemaVersion (input : GeneratePlanInput) :
    (basePlanJson input).lookup "schemaVersion" = some (.num 2) := rfl

theorem planDays_basePlanJson (input : GeneratePlanInput) :
    planDays (basePlanJson input) = (planDaysV2 input).map dayToJson := by
  rw [planDays, basePlanJson_lookup_days]
  rfl

theorem planShapeOk_destruct (plan : Json) (hs : planShapeOk plan = true) :
    plan.lookup "days" = some (.arr (planDays plan)) ∧
    plan.lookup "modules" = some (.obj (planModules plan)) := by
  have h1 := hs
  simp only [planShapeOk, Bool.and_eq_true] at h1
  obtain ⟨⟨hobj, hdays⟩, hmods⟩ := h1
  constructor
  · cases hd : plan.lookup "days" with
    | none => simp [hd] at hdays
    | some v => cases v <;> simp [hd] at hdays <;> simp [planDays, hd, Json.asArray]
  · cases hm : plan.lookup "modules" with
    | none => simp [hm] at hmods
    | some v => cases v <;> simp [hm] at hmods <;> simp [planModules, hm]

theorem enforce_result_cases (plan : Json) (oj : Option Json) :
    (enforceClinicOverrides plan oj).1 = plan ∨
    ∃ ov : ClinicOverrides, planShapeOk plan = true ∧
      (enforceClinicOverrides plan oj).1 =
        (plan.setField "days"
          (.arr ((planDays plan).map
            (fun d => (enforceDay (buildCtx ov (planModules plan)).1 d).1)))).setField
          "meta" (metaUpdated plan ov) := by
  cases oj with
  | none => exact Or.inl rfl
  | some o =>
      simp only [enforceClinicOverrides]
      by_cases ht : o.truthy = false
      · rw [if_pos ht]
        exact Or.inl rfl
      · rw [if_neg ht]
        cases hp : parseClinicOverrides o with
        | none => exact Or.inl rfl
        | some ov =>
            dsimp only
            by_cases hs : planShapeOk plan = false
            · rw [if_pos hs]
              exact Or.inl rfl
            · rw [if_neg hs]
              have hs' : planShapeOk plan = true := by
                cases hX : planShapeOk plan
                · exact absurd hX hs
                · rfl
              obtain ⟨hd, hm⟩ := planShapeOk_destruct plan hs'
              rw [hd, hm]
              split
              · refine Or.inr ⟨ov, hs', ?_⟩
                dsimp only
                rw [List.map_map]
                rfl
              · exact Or.inl rfl

theorem enforce_invalid_policy (plan o : Json) (ht : o.truthy = true)
    (hp : parseClinicOverrides o = none) :
    enforceClinicOverrides plan (some o) =
      (plan, [.overridesInvalid "Clinic overridesJson failed validation; ignoring overrides."]) := by
  simp only [enforceClinicOverrides]
  rw [if_neg (by simp [ht]), hp]

theorem enforce_bad_shape (plan o : Json) (ov : ClinicOverrides) (ht : o.truthy = true)
    (hp : parseClinicOverrides o = some ov) (hs : planShapeOk plan = false) :
    enforceClinicOverrides plan (some o) =
      (plan, [.overridesInvalid "Plan shape is not compatible with enforcement; ignoring overrides."]) := by
  simp only [enforceClinicOverrides]
  rw [if_neg (by simp [ht]), hp]
  dsimp only
  rw [if_pos hs]

theorem enforce_wrong_schemaVersion (plan o : Json) (ov : ClinicOverrides) (ht : o.truthy = true)
    (hp : parseClinicOverrides o = some ov) (hs : planShapeOk plan = true)
    (hv : plan.lookup "schemaVersion" ≠ some (.num 2)) :
    enforceClinicOverrides plan (some o) = (plan, []) := by
  simp only [enforceClinicOverrides]
  rw [if_neg (by simp [ht]), hp]
  dsimp only
  rw [if_neg (by simp [hs])]

theorem enforce_eq_run (plan o : Json) (ov : ClinicOverrides)
    (ht : o.truthy = true) (hp : parseClinicOverrides o = some ov)
    (hs : planShapeOk plan = true) (hv : plan.lookup "schemaVersion" = some (.num 2)) :
    enforceClinicOverrides plan (some o) =
      ((plan.setField "days"
          (.arr ((planDays plan).map
            (fun d => (enforceDay (buildCtx ov (planModules plan)).1 d).1)))).setField
         "meta" (metaUpdated plan ov),
       (buildCtx ov (planModules plan)).2 ++
         ((planDays plan).map
           (fun d => (enforceDay (buildCtx ov (planModules plan)).1 d).2)).flatten) := by
  simp only [enforceClinicOverrides]
  rw [if_neg (by simp [ht]), hp]
  dsimp only
  rw [if_neg (by simp [hs])]
  obtain ⟨hd, hm⟩ := planShapeOk_destruct plan hs
  rw [hd, hm, hv]
  dsimp only
  rw [List.map_map, List.map_map]
  rfl

/-! ## Per-day enforcement lemmas -/

theorem normalizeDayNumber_id (n : Nat) (hn : n ≤ 1000) :
    normalizeDayNumber (some (.num (n : Int))) = n := by
  simp only [normalizeDayNumber]
  omega

theorem normalizePhase_valid (p : String) (hp : p = "early" ∨ p = "mid" ∨ p = "late") :
    normalizePhase (some (.str p)) = p := by
  simp only [normalizePhase]
  rcases hp with h | h | h <;> simp [h]

theorem phase_valid_ne_empty (p : String) (hp : p = "early" ∨ p = "mid" ∨ p = "late") :
    p ≠ "" := by
  rcases hp with h | h | h <;> simp [h]

theorem enforceDay_day_phase (ctx : EnfCtx) (d : Json) (n : Nat) (hn : n ≤ 1000)
    (p : String) (hp3 : p = "early" ∨ p = "mid" ∨ p = "late")
    (hd : d.lookup "day" = some (.num (n : Int)))
    (hph : d.lookup "phase" = some (.str p)) :
    (enforceDay ctx d).1.lookup "day" = some (.num (n : Int)) ∧
    (enforceDay ctx d).1.lookup "phase" = some (.str p) := by
  simp only [enforceDay]
  rw [hd, hph, normalizeDayNumber_id n hn, normalizePhase_valid p hp3]
  rw [if_pos (phase_valid_ne_empty p hp3)]
  constructor
  · rw [lookup_setField_ne _ "moduleIds" "day" _ (by decide),
        lookup_setField_ne _ "phase" "day" _ (by decide),
        lookup_setField_self]
  · rw [lookup_setField_ne _ "moduleIds" "phase" _ (by decide),
        lookup_setField_self]

theorem phaseForDay_valid (i : Nat) :
    phaseForDay i = "early" ∨ phaseForDay i = "mid" ∨ phaseForDay i = "late" := by
  unfold phaseForDay
  split
  · exact Or.inl rfl
  · split
    · exact Or.inr (Or.inl rfl)
    · exact Or.inr (Or.inr rfl)

theorem enforceDay_moduleIds (ctx : EnfCtx) (d : Json) :
    dayModuleIds (enforceDay ctx d).1 =
      finalIds ctx (normalizeDayNumber (d.lookup "day")) (normalizePhase (d.lookup "phase"))
        (dayModuleIds d) := by
  simp only [enforceDay, dayModuleIds]
  rw [lookup_setField_self]
  simp only [Option.getD_some, Json.asArray, strElems_map_str]
  simp only [finalIds, preCapIds]
  cases ctx.maxModulesPerDay with
  | none => rfl
  | some n =>
      dsimp only
      by_cases hn : 0 < n
      · rw [if_pos hn, if_pos hn]
      · rw [if_neg hn, if_neg hn]

/-! ## Days preservation through enforcement and resolution -/

theorem enforce_days_length (plan : Json) (oj : Option Json) :
    (planDays (enforceClinicOverrides plan oj).1).length = (planDays plan).length := by
  rcases enforce_result_cases plan oj with h | ⟨ov, hs, h⟩
  · rw [h]
  · rw [h, planDays_setField _ "meta" _ (by decide), planDays_setField_days, List.length_map]

theorem enforce_days_pointwise (plan : Json) (oj : Option Json) (i n : Nat) (hn : n ≤ 1000)
    (p : String) (hp3 : p = "early" ∨ p = "mid" ∨ p = "late")
    (hday : ((planDays plan)[i]?).bind (fun d => d.lookup "day") = some (.num (n : Int)))
    (hph : ((planDays plan)[i]?).bind (fun d => d.lookup "phase") = some (.str p)) :
    ((planDays (enforceClinicOverrides plan oj).1)[i]?).bind (fun d => d.lookup "day")
        = some (.num (n : Int)) ∧
    ((planDays (enforceClinicOverrides plan oj).1)[i]?).bind (fun d => d.lookup "phase")
        = some (.str p) := by
  rcases enforce_result_cases plan oj with h | ⟨ov, hs, h⟩
  · rw [h]
    exact ⟨hday, hph⟩
  · rw [h, planDays_setField _ "meta" _ (by decide), planDays_setField_days, List.getElem?_map]
    cases hi : (planDays plan)[i]? with
    | none => rw [hi] at hday; simp at hday
    | some d =>
        rw [hi] at hday hph
        have hday' : d.lookup "day" = some (.num (n : Int)) := hday
        have hph' : d.lookup "phase" = some (.str p) := hph
        have hres := enforceDay_day_phase (buildCtx ov (planModules plan)).1 d n hn p hp3 hday' hph'
        exact ⟨hres.1, hres.2⟩

theorem resolveDay_lookup_ne (lib : List (String × Json)) (d : Json) (k : String)
    (h : k ≠ "modulesResolved") :
    (resolveDay lib d).lookup k = d.lookup k := by
  unfold resolveDay
  rw [lookup_setField_ne _ _ _ _ h]

theorem planDaysV2_length (input : GeneratePlanInput) : (planDaysV2 input).length = 21 := by
  have h := sameSkeleton_applyRules (ensure21Days (templateDays input)) input.config
  unfold planDaysV2
  rw [List.length_map, ← h.1, ensure21Days_length]

theorem planDaysV2_day_phase (input : GeneratePlanInput) (i : Nat) (h : i < 21) :
    ((planDaysV2 input)[i]?).map DayV2.day = some i ∧
    ((planDaysV2 input)[i]?).map DayV2.phase = some (phaseForDay i) := by
  have hs := sameSkeleton_applyRules (ensure21Days (templateDays input)) input.config
  have hd := sameSkeleton_map ((applyRules (ensure21Days (templateDays input)) input.config).1)
    (fun d => { d with moduleIds := dedupe d.moduleIds }) (fun d => ⟨rfl, rfl⟩)
  have htot := sameSkeleton_trans hs hd
  have he := ensure21Days_day_phase (templateDays input) i h
  unfold planDaysV2
  exact ⟨((htot.2 i).1.symm.trans he.1), ((htot.2 i).2.symm.trans he.2)⟩

theorem dayToJson_lookup_day (d : DayV2) : (dayToJson d).lookup "day" = some (.num (d.day : Int)) := rfl

theorem dayToJson_lookup_phase (d : DayV2) : (dayToJson d).lookup "phase" = some (.str d.phase) := rfl

theorem dayToJson_lookup_moduleIds (d : DayV2) :
    (dayToJson d).lookup "moduleIds" = some (.arr (d.moduleIds.map Json.str)) := rfl

theorem basePlan_day_phase (input : GeneratePlanInput) (i : Nat) (h : i < 21) :
    ((planDays (basePlanJson input))[i]?).bind (fun d => d.lookup "day")
        = some (.num (i : Int)) ∧
    ((planDays (basePlanJson input))[i]?).bind (fun d => d.lookup "phase")
        = some (.str (phaseForDay i)) := by
  rw [planDays_basePlanJson, List.getElem?_map]
  obtain ⟨h1, h2⟩ := planDaysV2_day_phase input i h
  cases hi : (planDaysV2 input)[i]? with
  | none => rw [hi] at h1; simp at h1
  | some d =>
      rw [hi] at h1 h2
      have h1' : d.day = i := Option.some.inj h1
      have h2' : d.phase = phaseForDay i := Option.some.inj h2
      constructor
      · show (dayToJson d).lookup "day" = some (.num (i : Int))
        rw [dayToJson_lookup_day, h1']
      · show (dayToJson d).lookup "phase" = some (.str (phaseForDay i))
        rw [dayToJson_lookup_phase, h2']

/-! ## Observations on the final generatePlan output -/

theorem generatePlan_planDays (input : GeneratePlanInput) :
    planDays (generatePlan input).planJson =
      (planDays (enforcedPlan input).1).map (resolveDay (planModules (enforcedPlan input).1)) := by
  simp only [generatePlan]
  split <;> split
  all_goals
    repeat rw [planDays_setField _ "meta" _ (by decide)]
    rw [planDays_setField_days]
    rfl

theorem generatePlan_planModules (input : GeneratePlanInput) :
    planModules (generatePlan input).planJson = planModules (enforcedPlan input).1 := by
  simp only [generatePlan]
  split <;> split
  all_goals
    repeat first
      | rw [planModules_setField _ "meta" _ (by decide)]
      | rw [planModules_setField _ "days" _ (by decide)]

theorem generatePlan_days_length (input : GeneratePlanInput) :
    (planDays (generatePlan input).planJson).length = 21 := by
  rw [generatePlan_planDays, List.length_map]
  show (planDays (enforceClinicOverrides (basePlanJson input) input.clinicOverridesJson).1).length = 21
  rw [enforce_days_length, planDays_basePlanJson, List.length_map, planDaysV2_length]

theorem generatePlan_day_phase (input : GeneratePlanInput) (i : Nat) (h : i < 21) :
    ((planDays (generatePlan input).planJson)[i]?).bind (fun d => d.lookup "day")
        = some (.num (i : Int)) ∧
    ((planDays (generatePlan input).planJson)[i]?).bind (fun d => d.lookup "phase")
        = some (.str (phaseForDay i)) := by
  obtain ⟨hb1, hb2⟩ := basePlan_day_phase input i h
  have henf := enforce_days_pointwise (basePlanJson input) input.clinicOverridesJson i i
    (by omega) (phaseForDay i) (phaseForDay_valid i) hb1 hb2
  rw [generatePlan_planDays, List.getElem?_map]
  cases hi : (planDays (enforcedPlan input).1)[i]? with
  | none =>
      rw [show (enforcedPlan input).1
            = (enforceClinicOverrides (basePlanJson input) input.clinicOverridesJson).1 from rfl]
        at hi
      rw [hi] at henf
      simp at henf
  | some d =>
      rw [show (enforcedPlan input).1
            = (enforceClinicOverrides (basePlanJson input) input.clinicOverridesJson).1 from rfl]
        at hi
      rw [hi] at henf
      have hd1 : d.lookup "day" = some (.num (i : Int)) := henf.1
      have hd2 : d.lookup "phase" = some (.str (phaseForDay i)) := henf.2
      constructor
      · show (resolveDay (planModules (enforcedPlan input).1) d).lookup "day"
            = some (.num (i : Int))
        rw [resolveDay_lookup_ne _ _ _ (by decide), hd1]
      · show (resolveDay (planModules (enforcedPlan input).1) d).lookup "phase"
            = some (.str (phaseForDay i))
        rw [resolveDay_lookup_ne _ _ _ (by decide), hd2]

/-! ## Module resolution lemmas -/

theorem resolveDay_resolved (lib : List (String × Json)) (d : Json) :
    dayResolved (resolveDay lib d) =
      (dayModuleIds d).filterMap (fun id =>
        match lookupFields lib id with
        | some .null => none
        | some v => some v
        | none => none) := by
  unfold resolveDay dayResolved
  rw [lookup_setField_self]
  rfl

theorem resolveDay_moduleIds (lib : List (String × Json)) (d : Json) :
    dayModuleIds (resolveDay lib d) = dayModuleIds d := by
  unfold dayModuleIds
  rw [resolveDay_lookup_ne _ _ _ (by decide)]

theorem resolves_isSome (lib : List (String × Json)) (id : String) :
    (match lookupFields lib id with
     | some .null => (none : Option Json)
     | some v => some v
     | none => none).isSome = resolvesIn lib id := by
  unfold resolvesIn
  cases h : lookupFields lib id with
  | none => rfl
  | some v => cases v <;> rfl

/-! ## Forbidden-wins and cap lemmas -/

theorem not_mem_removeAll (ids rem : List String) (id : String) (h : id ∈ rem) :
    id ∉ removeAll ids rem := by
  unfold removeAll
  intro hmem
  have := (List.mem_filter.mp hmem).2
  simp only [decide_eq_true_eq] at this
  exact this (by simpa using h)

theorem stableCap_kept_subset (ids : List String) (n : Nat) (id : String)
    (h : id ∈ (stableCap ids n).kept) : id ∈ ids := by
  unfold stableCap at h
  split at h
  · exact h
  · exact List.mem_of_mem_take h

theorem not_mem_preCapIds (ctx : EnfCtx) (dayNum : Nat) (phase : String)
    (original : List String) (id : String) (hid : id ∈ ctx.forbidden) :
    id ∉ preCapIds ctx dayNum phase original := by
  simp only [preCapIds]
  have hne : ctx.forbidden ≠ [] := by
    intro h
    rw [h] at hid
    exact absurd hid (List.not_mem_nil id)
  rw [if_pos hne]
  exact not_mem_removeAll _ _ _ hid

theorem not_mem_finalIds (ctx : EnfCtx) (dayNum : Nat) (phase : String)
    (original : List String) (id : String) (hid : id ∈ ctx.forbidden) :
    id ∉ finalIds ctx dayNum phase original := by
  intro hmem
  apply not_mem_preCapIds ctx dayNum phase original id hid
  simp only [finalIds] at hmem
  rcases hc : ctx.maxModulesPerDay with _ | n
  · rw [hc] at hmem
    exact hmem
  · rw [hc] at hmem
    dsimp only at hmem
    by_cases hn : 0 < n
    · rw [if_pos hn] at hmem
      exact stableCap_kept_subset _ _ _ hmem
    · rw [if_neg hn] at hmem
      exact hmem

/-! ## Remaining support lemmas -/

theorem find?_map_replace_nat (m : List (Nat × DayV2)) (k k' : Nat) (v : DayV2)
    (h : k' ≠ k) :
    (m.map (fun p => if p.1 = k then (k, v) else p)).find? (fun p => p.1 = k') =
      m.find? (fun p => p.1 = k') := by
  induction m with
  | nil => rfl
  | cons p ps ih =>
      by_cases hp : p.1 = k
      · rw [List.map_cons, if_pos hp]
        rw [List.find?_cons_of_neg _ (by simp [Ne.symm h]),
            List.find?_cons_of_neg _ (by simp [hp]; exact fun hh => h hh.symm)]
        exact ih
      · rw [List.map_cons, if_neg hp]
        by_cases hq : p.1 = k'
        · rw [List.find?_cons_of_pos _ (by simp [hq]), List.find?_cons_of_pos _ (by simp [hq])]
        · rw [List.find?_cons_of_neg _ (by simp [hq]), List.find?_cons_of_neg _ (by simp [hq])]
          exact ih

theorem find?_map_replace_self_nat (m : List (Nat × DayV2)) (k : Nat) (v : DayV2)
    (h : m.any (fun p => p.1 = k)) :
    (m.map (fun p => if p.1 = k then (k, v) else p)).find? (fun p => p.1 = k) =
      some (k, v) := by
  induction m with
  | nil => simp at h
  | cons p ps ih =>
      by_cases hp : p.1 = k
      · rw [List.map_cons, if_pos hp, List.find?_cons_of_pos _ (by simp)]
      · rw [List.map_cons, if_neg hp, List.find?_cons_of_neg _ (by simp [hp])]
        refine ih ?_
        simp only [List.any_cons, Bool.or_eq_true] at h
        rcases h with h | h
        · exact absurd (by simpa using h) hp
        · exact h

theorem mapGet_mapInsert (m : List (Nat × DayV2)) (k : Nat) (v : DayV2) (k' : Nat) :
    mapGet (mapInsert m k v) k' = if k' = k then some v else mapGet m k' := by
  unfold mapInsert mapGet
  by_cases hany : m.any (fun p => p.1 = k)
  · rw [if_pos hany]
    by_cases h : k' = k
    · subst h
      rw [if_pos rfl, find?_map_replace_self_nat m k' v hany]
      rfl
    · rw [if_neg h, find?_map_replace_nat m k k' v h]
  · have h2 : (m.any fun p => decide (p.1 = k)) = false := by
      cases hX : (m.any fun p => decide (p.1 = k)) with
      | false => rfl
      | true => exact absurd hX hany
    have hnone : m.find? (fun p => (p.1 = k : Bool)) = none := by
      rw [List.find?_eq_none]
      intro x hx hxk
      exact hany (List.any_eq_true.mpr ⟨x, hx, hxk⟩)
    simp only [h2, Bool.false_eq_true, if_false]
    by_cases h : k' = k
    · subst h
      rw [if_pos rfl, List.find?_append, hnone, Option.none_or,
          List.find?_cons_of_pos _ (by simp)]
      rfl
    · rw [if_neg h, List.find?_append, List.find?_cons_of_neg _ (by simp [Ne.symm h]),
          List.find?_nil, Option.or_none]

theorem byDay_eq_lastWithDay (ds : List DayV2) (m : List (Nat × DayV2)) (d : Nat) :
    mapGet (ds.foldl (fun m x => mapInsert m x.day x) m) d =
      ds.foldl (fun acc x => if x.day = d then some x else acc) (mapGet m d) := by
  induction ds generalizing m with
  | nil => rfl
  | cons x xs ih =>
      simp only [List.foldl_cons]
      rw [ih]
      congr 1
      rw [mapGet_mapInsert]
      by_cases h : d = x.day
      · rw [if_pos h, if_pos h.symm]
      · rw [if_neg h, if_neg (fun hh => h hh.symm)]

theorem byDay_none_of_absent (ds : List DayV2) (d : Nat)
    (h : ∀ x ∈ ds, x.day ≠ d) :
    mapGet (ds.foldl (fun m x => mapInsert m x.day x) []) d = none := by
  rw [byDay_eq_lastWithDay]
  induction ds with
  | nil => rfl
  | cons x xs ih =>
      simp only [List.foldl_cons]
      rw [if_neg (h x (List.mem_cons_self x xs))]
      exact ih (fun y hy => h y (List.mem_cons_of_mem _ hy))

theorem byDay_eq_some_of_last (ds : List DayV2) (d : Nat) (ex : DayV2)
    (h : lastWithDay ds d = some ex) :
    mapGet (ds.foldl (fun m x => mapInsert m x.day x) []) d = some ex := by
  rw [byDay_eq_lastWithDay]
  exact h

theorem parse_truthy (o : Json) (ov : ClinicOverrides)
    (hp : parseClinicOverrides o = some ov) : o.truthy = true := by
  cases o with
  | obj fs => rfl
  | null => exact Option.noConfusion hp
  | bool b => exact Option.noConfusion hp
  | num n => exact Option.noConfusion hp
  | str s => exact Option.noConfusion hp
  | arr xs => exact Option.noConfusion hp

theorem buildCtx_forbidden (ov : ClinicOverrides) (lib : List (String × Json)) :
    (buildCtx ov lib).1.forbidden = ov.forbiddenModuleIds.getD [] := rfl

theorem buildCtx_max (ov : ClinicOverrides) (lib : List (String × Json)) :
    (buildCtx ov lib).1.maxModulesPerDay = ov.maxModulesPerDay := rfl

/-! ## Claim theorems -/

/-- C1 counterexample: at the concrete input with an absent template
(`templatePlanJson` undefined), `generatePlan` does not fail and does not
produce "no plan": it returns a complete plan with 21 days, refuting the claim
that a missing/invalid template is a fatal `ConfigurationError` with no plan
produced. -/
theorem c1_counterexample_missing_template_still_plans :
    (planDays (generatePlan missingTemplateInput).planJson).length = 21 :=
  generatePlan_days_length missingTemplateInput

/-- C1 (amended): `generatePlan` never fails on a missing or invalid template.
When `templatePlanJson` is absent or not a plain object it is silently replaced
by the empty template and a complete 21-day plan is produced (no
`ConfigurationError` exists anywhere in the engine). -/
theorem c1_missing_template_falls_back_to_empty (input : GeneratePlanInput)
    (h : (input.templatePlanJson.map Json.isPlainObject).getD false = false) :
    (generatePlan input).planJson =
      (generatePlan { input with templatePlanJson := some (.obj []) }).planJson ∧
    (planDays (generatePlan input).planJson).length = 21 := by
  have hb : templateBase input.templatePlanJson = [] := by
    unfold templateBase
    cases ht : input.templatePlanJson with
    | none => rfl
    | some j =>
        rw [ht] at h
        cases j <;> first | rfl | simp [Json.isPlainObject] at h
  have htd : templateDays input = templateDays { input with templatePlanJson := some (.obj []) } := by
    unfold templateDays
    rw [hb]
    rfl
  have hpd : planDaysV2 input = planDaysV2 { input with templatePlanJson := some (.obj []) } := by
    unfold planDaysV2
    rw [htd]
  have hbase : basePlanJson input = basePlanJson { input with templatePlanJson := some (.obj []) } := by
    unfold basePlanJson
    rw [hpd, htd, hb]
    rfl
  constructor
  · show (generatePlan input).planJson = _
    unfold generatePlan enforcedPlan
    rw [hbase]
  · exact generatePlan_days_length input

/-- C1 witness. -/
theorem c1_missing_template_falls_back_to_empty_witness :
    ((missingTemplateInput.templatePlanJson.map Json.isPlainObject).getD false = false) ∧
    ((generatePlan missingTemplateInput).planJson =
      (generatePlan { missingTemplateInput with templatePlanJson := some (.obj []) }).planJson ∧
     (planDays (generatePlan missingTemplateInput).planJson).length = 21) :=
  ⟨by decide, c1_missing_template_falls_back_to_empty missingTemplateInput (by decide)⟩

/-- C2 counterexample: with no supplied days at all, the filled entry for day 4
(a later day, 4..20) carries the four default modules, not an empty module
set — refuting "later days (4-20) default to an empty module set". -/
theorem c2_counterexample_day4_default_not_empty :
    ((ensure21Days [])[4]?).map DayV2.moduleIds =
      some ["checkin_overall", "track_pain", "rf_emergency", "rf_worsening"] ∧
    ((ensure21Days [])[4]?).map DayV2.moduleIds ≠ some [] := by
  constructor
  · decide
  · decide

/-- C2 (amended): every index 0..20 not present among the supplied day numbers
is filled with the default entry; that default carries the module list
[checkin_overall, track_pain, rf_emergency, rf_worsening] on every day (early
and later alike), with starter box items on early days (0-3) and an empty
box-item set on later days (4-20). -/
theorem c2_missing_days_filled_with_defaults (ds : List DayV2) (d : Nat) (hd : d < 21)
    (habsent : ∀ x ∈ ds, x.day ≠ d) :
    (ensure21Days ds)[d]? = some (defaultDay d) ∧
    (defaultDay d).moduleIds = ["checkin_overall", "track_pain", "rf_emergency", "rf_worsening"] ∧
    (defaultDay d).boxItems = (if d ≤ 3 then ["box_gauze", "box_tape", "box_coldpack"] else []) := by
  refine ⟨?_, rfl, rfl⟩
  rw [ensure21Days_getElem? ds d hd, byDay_none_of_absent ds d habsent]

/-- C2 witness. -/
theorem c2_missing_days_filled_with_defaults_witness :
    (4 < 21 ∧ ∀ x ∈ ([] : List DayV2), x.day ≠ 4) ∧
    ((ensure21Days [])[4]? = some (defaultDay 4) ∧
     (defaultDay 4).moduleIds = ["checkin_overall", "track_pain", "rf_emergency", "rf_worsening"] ∧
     (defaultDay 4).boxItems = (if 4 ≤ 3 then ["box_gauze", "box_tape", "box_coldpack"] else [])) :=
  ⟨⟨by decide, by simp⟩,
   c2_missing_days_filled_with_defaults [] 4 (by decide) (by simp)⟩

/-- C3 counterexample: at the concrete input with an empty template (so the
module dictionary is empty) and no override policy, day 0's `moduleIds`
contains `checkin_overall`, which is not a key of the `modules` dictionary —
refuting "every id in every day's moduleIds exists as a key of the modules
dictionary". -/
theorem c3_counterexample_unknown_id_in_moduleIds :
    "checkin_overall" ∈ dayModuleIds ((planDays (generatePlan emptyTemplateInput).planJson).getD 0 .null) ∧
    lookupFields (planModules (generatePlan emptyTemplateInput).planJson) "checkin_overall" = none := by
  constructor
  · decide
  · decide

/-- C3 (amended): in every `GeneratedPlan`, each day's `modulesResolved` has
length equal to the number of that day's `moduleIds` that resolve in the
modules dictionary, with no gaps; `moduleIds` itself may reference ids absent
from the dictionary (the defensive filter only runs when a valid override
policy is enforced). -/
theorem c3_modulesResolved_length_counts_resolving (input : GeneratePlanInput)
    (i : Nat) (d : Json)
    (hd : (planDays (generatePlan input).planJson)[i]? = some d) :
    (dayResolved d).length =
      (dayModuleIds d).countP (fun id => resolvesIn (planModules (generatePlan input).planJson) id) := by
  rw [generatePlan_planDays, List.getElem?_map] at hd
  cases hi : (planDays (enforcedPlan input).1)[i]? with
  | none => rw [hi] at hd; exact Option.noConfusion hd
  | some d0 =>
      rw [hi] at hd
      have hd' : resolveDay (planModules (enforcedPlan input).1) d0 = d := Option.some.inj hd
      subst hd'
      rw [generatePlan_planModules]
      rw [resolveDay_resolved, resolveDay_moduleIds, List.length_filterMap_eq_countP]
      refine List.countP_congr ?_
      intro id _
      rw [resolves_isSome]

/-- C3 witness. -/
theorem c3_modulesResolved_length_counts_resolving_witness :
    ((planDays (generatePlan emptyTemplateInput).planJson)[0]? = some c3Day0) ∧
    (dayResolved c3Day0).length =
      (dayModuleIds c3Day0).countP
        (fun id => resolvesIn (planModules (generatePlan emptyTemplateInput).planJson) id) :=
  ⟨by decide, c3_modulesResolved_length_counts_resolving emptyTemplateInput 0 c3Day0 (by decide)⟩

/-- C5: if the supplied (present) override policy fails schema validation, or
the plan shape is incompatible, enforcement is skipped entirely: the plan is
returned unmodified and a single diagnostic `clinic_overrides_invalid` audit
event is recorded (fail-open, never fail-closed). -/
theorem c5_fail_open_on_invalid_policy_or_shape (plan o : Json) (ht : o.truthy = true)
    (hcase : parseClinicOverrides o = none ∨ planShapeOk plan = false) :
    enforceClinicOverrides plan (some o) =
      (plan, [.overridesInvalid
        (if parseClinicOverrides o = none
         then "Clinic overridesJson failed validation; ignoring overrides."
         else "Plan shape is not compatible with enforcement; ignoring overrides.")]) := by
  rcases hcase with h | h
  · rw [enforce_invalid_policy plan o ht h, if_pos h]
  · cases hp : parseClinicOverrides o with
    | none =>
        rw [enforce_invalid_policy plan o ht hp]
        simp
    | some ov =>
        rw [enforce_bad_shape plan o ov ht hp h]
        simp

/-- C5 witness (an invalid policy value against a non-object plan). -/
theorem c5_fail_open_on_invalid_policy_or_shape_witness :
    invalidPolicy.truthy = true ∧
    enforceClinicOverrides (.num 5) (some invalidPolicy) =
      (.num 5, [.overridesInvalid
        (if parseClinicOverrides invalidPolicy = none
         then "Clinic overridesJson failed validation; ignoring overrides."
         else "Plan shape is not compatible with enforcement; ignoring overrides.")]) :=
  ⟨by decide,
   c5_fail_open_on_invalid_policy_or_shape (.num 5) invalidPolicy (by decide) (Or.inl (by decide))⟩

/-- C7: for every input, the output plan has exactly 21 day blocks indexed
0..20 in sorted order (the entry at position i carries day i), and each entry's
phase matches the day ranges: 0-3 early, 4-10 mid, 11-20 late. -/
theorem c7_output_complete_21_days_with_phase_ranges (input : GeneratePlanInput)
    (i : Nat) (h : i < 21) :
    (planDays (generatePlan input).planJson).length = 21 ∧
    ((planDays (generatePlan input).planJson)[i]?).bind (fun d => d.lookup "day")
        = some (.num (i : Int)) ∧
    ((planDays (generatePlan input).planJson)[i]?).bind (fun d => d.lookup "phase")
        = some (.str (if i ≤ 3 then "early" else if i ≤ 10 then "mid" else "late")) := by
  refine ⟨generatePlan_days_length input, (generatePlan_day_phase input i h).1, ?_⟩
  exact (generatePlan_day_phase input i h).2

/-- C7 witness (day 5 of the Example A plan is a mid-phase day). -/
theorem c7_output_complete_21_days_with_phase_ranges_witness :
    (planDays (generatePlan exampleAInput).planJson).length = 21 ∧
    ((planDays (generatePlan exampleAInput).planJson)[5]?).bind (fun d => d.lookup "day")
        = some (.num 5) ∧
    ((planDays (generatePlan exampleAInput).planJson)[5]?).bind (fun d => d.lookup "phase")
        = some (.str (if 5 ≤ 3 then "early" else if 5 ≤ 10 then "mid" else "late")) :=
  c7_output_complete_21_days_with_phase_ranges exampleAInput 5 (by decide)

/-- C9: when the same day number appears more than once in the source days,
the normalizer keeps the last occurrence of that day number: the output entry
for that day is the last such entry (with its day and phase re-normalized),
and all earlier entries with that day are discarded. -/
theorem c9_last_occurrence_wins (ds : List DayV2) (d : Nat) (hd : d < 21) (ex : DayV2)
    (hlast : lastWithDay ds d = some ex) :
    (ensure21Days ds)[d]? = some { ex with day := d, phase := phaseForDay d } := by
  rw [ensure21Days_getElem? ds d hd, byDay_eq_some_of_last ds d ex hlast]

/-- C9 witness: two entries share day 2; the output keeps the second. -/
theorem c9_last_occurrence_wins_witness :
    lastWithDay [dupDayFirst, dupDaySecond] 2 = some dupDaySecond ∧
    (ensure21Days [dupDayFirst, dupDaySecond])[2]? =
      some { dupDaySecond with day := 2, phase := phaseForDay 2 } :=
  ⟨by decide, c9_last_occurrence_wins [dupDayFirst, dupDaySecond] 2 (by decide) dupDaySecond (by decide)⟩

/-- C10: for every shape-compatible plan whose `schemaVersion` is not exactly 2
and every schema-valid (present) override policy, enforcement returns the plan
unchanged and emits no audit event whatsoever — the silent skip path. -/
theorem c10_wrong_schemaVersion_silent_skip (plan o : Json) (ov : ClinicOverrides)
    (hp : parseClinicOverrides o = some ov) (hs : planShapeOk plan = true)
    (hv : plan.lookup "schemaVersion" ≠ some (.num 2)) :
    enforceClinicOverrides plan (some o) = (plan, []) :=
  enforce_wrong_schemaVersion plan o ov (parse_truthy o ov hp) hp hs hv

/-- C10 witness: a schemaVersion-1 plan with a valid cap policy. -/
theorem c10_wrong_schemaVersion_silent_skip_witness :
    parseClinicOverrides exampleCPolicy = some exampleCParsed ∧
    planShapeOk v1Plan = true ∧
    v1Plan.lookup "schemaVersion" ≠ some (.num 2) ∧
    enforceClinicOverrides v1Plan (some exampleCPolicy) = (v1Plan, []) :=
  ⟨by decide, by decide, by decide,
   c10_wrong_schemaVersion_silent_skip v1Plan exampleCPolicy exampleCParsed (by decide) (by decide)
     (by decide)⟩

/-- C4: forbidden always wins. For every shape-compatible schema-v2 plan and
every valid override policy, if a module id appears in `forbiddenModuleIds` and
also in `requiredModuleIds`, `requiredByPhase`, or `requiredByDay`, then after
enforcement that id is absent from every day's final `moduleIds`. -/
theorem c4_forbidden_wins (plan o : Json) (ov : ClinicOverrides) (id : String)
    (hp : parseClinicOverrides o = some ov)
    (hs : planShapeOk plan = true) (hv : plan.lookup "schemaVersion" = some (.num 2))
    (hforb : id ∈ ov.forbiddenModuleIds.getD [])
    (hreq : id ∈ ov.requiredModuleIds.getD [] ∨
            id ∈ (ov.requiredByPhase.bind (fun r => r.early)).getD [] ∨
            id ∈ (ov.requiredByPhase.bind (fun r => r.mid)).getD [] ∨
            id ∈ (ov.requiredByPhase.bind (fun r => r.late)).getD [] ∨
            (∃ p ∈ ov.requiredByDay.getD [], id ∈ p.2)) :
    ∀ d ∈ planDays (enforceClinicOverrides plan (some o)).1, id ∉ dayModuleIds d := by
  intro d hd
  have ht := parse_truthy o ov hp
  rw [enforce_eq_run plan o ov ht hp hs hv] at hd
  dsimp only at hd
  rw [planDays_setField _ "meta" _ (by decide), planDays_setField_days] at hd
  obtain ⟨d0, hd0, rfl⟩ := List.mem_map.mp hd
  rw [enforceDay_moduleIds]
  refine not_mem_finalIds _ _ _ _ _ ?_
  rw [buildCtx_forbidden]
  exact hforb

/-- C4 witness (spec Example B: `track_swelling` both forbidden and required). -/
theorem c4_forbidden_wins_witness :
    parseClinicOverrides exampleBPolicy = some exampleBParsed ∧
    planShapeOk exampleBPlan = true ∧
    exampleBPlan.lookup "schemaVersion" = some (.num 2) ∧
    "track_swelling" ∈ exampleBParsed.forbiddenModuleIds.getD [] ∧
    "track_swelling" ∈ exampleBParsed.requiredModuleIds.getD [] ∧
    "track_swelling" ∉ dayModuleIds c4EnforcedDay0 :=
  ⟨by decide, by decide, by decide, by decide, by decide,
   c4_forbidden_wins exampleBPlan exampleBPolicy exampleBParsed "track_swelling"
     (by decide) (by decide) (by decide) (by decide) (Or.inl (by decide))
     c4EnforcedDay0 (by decide)⟩

/-- C8: for the Example A configuration {leg_foot, open_wound, escalating,
within_7_days, limited, standard_15_21} run against the base template, the
generated plan schedules swelling tracking on all 21 days, the infection and
worsening red flags on every early- and mid-phase day (0-10), follow-up
education exactly on days 5 and 6, and mobility education on every mid-phase
day (4-10). -/
theorem c8_exampleA_schedule (i : Nat) (h : i < 21) :
    "track_swelling" ∈ dayModuleIds ((planDays (generatePlan exampleAInput).planJson).getD i .null) ∧
    (i ≤ 10 → "rf_infection" ∈ dayModuleIds ((planDays (generatePlan exampleAInput).planJson).getD i .null)) ∧
    (i ≤ 10 → "rf_worsening" ∈ dayModuleIds ((planDays (generatePlan exampleAInput).planJson).getD i .null)) ∧
    ("edu_followup" ∈ dayModuleIds ((planDays (generatePlan exampleAInput).planJson).getD i .null) ↔
      (i = 5 ∨ i = 6)) ∧
    (4 ≤ i ∧ i ≤ 10 → "edu_mobility" ∈ dayModuleIds ((planDays (generatePlan exampleAInput).planJson).getD i .null)) := by
  revert h
  revert i
  decide

/-- C8 witness (day 5). -/
theorem c8_exampleA_schedule_witness :
    "track_swelling" ∈ dayModuleIds ((planDays (generatePlan exampleAInput).planJson).getD 5 .null) ∧
    (5 ≤ 10 → "rf_infection" ∈ dayModuleIds ((planDays (generatePlan exampleAInput).planJson).getD 5 .null)) ∧
    (5 ≤ 10 → "rf_worsening" ∈ dayModuleIds ((planDays (generatePlan exampleAInput).planJson).getD 5 .null)) ∧
    ("edu_followup" ∈ dayModuleIds ((planDays (generatePlan exampleAInput).planJson).getD 5 .null) ↔
      (5 = 5 ∨ 5 = 6)) ∧
    (4 ≤ 5 ∧ 5 ≤ 10 → "edu_mobility" ∈ dayModuleIds ((planDays (generatePlan exampleAInput).planJson).getD 5 .null)) :=
  c8_exampleA_schedule 5 (by decide)

/-! ## Cap lemmas for deterministic trimming -/

theorem stableCap_kept_take (ids : List String) (n : Nat) :
    (stableCap ids n).kept = ids.take n := by
  unfold stableCap
  split
  · rw [List.take_of_length_le (by assumption)]
  · rfl

theorem stableCap_removed_drop (ids : List String) (n : Nat) :
    (stableCap ids n).removed = ids.drop n := by
  unfold stableCap
  split
  · rw [List.drop_eq_nil_of_le (by assumption)]
  · rfl

theorem stableCap_kept_length (ids : List String) (n : Nat) :
    (stableCap ids n).kept.length ≤ n := by
  rw [stableCap_kept_take]
  exact List.length_take_le n ids

theorem finalIds_length_le (ctx : EnfCtx) (dayNum : Nat) (phase : String)
    (original : List String) (N : Int) (hmax : ctx.maxModulesPerDay = some N)
    (hN : 0 < N) :
    (finalIds ctx dayNum phase original).length ≤ N.toNat := by
  unfold finalIds
  rw [hmax]
  dsimp only
  rw [if_pos hN]
  exact stableCap_kept_length _ _

theorem finalIds_eq_take (ctx : EnfCtx) (dayNum : Nat) (phase : String)
    (original : List String) (N : Int) (hmax : ctx.maxModulesPerDay = some N)
    (hN : 0 < N) :
    finalIds ctx dayNum phase original =
      (preCapIds ctx dayNum phase original).take N.toNat := by
  unfold finalIds
  rw [hmax]
  dsimp only
  rw [if_pos hN, stableCap_kept_take]

/-! ## Audit-event shape lemmas -/

theorem filterKnown_events_no_cap (lib : List (String × Json)) (l : List String) (r : String) :
    ∀ e ∈ (filterKnown lib l r).2, ∀ t, isCapEventFor t e = false := by
  unfold filterKnown
  suffices h : ∀ acc : List String × List AuditEvent,
      (∀ e ∈ acc.2, ∀ t, isCapEventFor t e = false) →
      ∀ e ∈ (l.foldl
        (fun acc id =>
          if moduleKnown lib id then (acc.1 ++ [id], acc.2)
          else (acc.1, acc.2 ++ [.unknownModuleIgnored id r])) acc).2,
        ∀ t, isCapEventFor t e = false by
    exact h ([], []) (by simp)
  intro acc hacc
  induction l generalizing acc with
  | nil => exact hacc
  | cons x xs ih =>
      simp only [List.foldl_cons]
      refine ih _ ?_
      by_cases hknown : moduleKnown lib x
      · simpa [hknown] using hacc
      · simp only [hknown, Bool.false_eq_true, if_false]
        intro e he t
        rcases List.mem_append.mp he with he | he
        · exact hacc e he t
        · rcases List.mem_singleton.mp he with rfl
          rfl

theorem buildCtx_events_no_cap (ov : ClinicOverrides) (lib : List (String × Json)) :
    ∀ e ∈ (buildCtx ov lib).2, ∀ t, isCapEventFor t e = false := by
  unfold buildCtx
  intro e he t
  dsimp only at he
  rcases List.mem_append.mp he with he | he
  rotate_left
  · -- requiredByDay foldl part
    revert he
    suffices h : ∀ acc : List (String × List String) × List AuditEvent,
        (∀ e ∈ acc.2, ∀ t, isCapEventFor t e = false) →
        e ∈ (((ov.requiredByDay.getD []).foldl
          (fun acc p =>
            let f := filterKnown lib p.2 (toString "requiredByDay." ++ toString p.1 ++ toString "")
            (acc.1 ++ [(p.1, f.1)], acc.2 ++ f.2)) acc).2) →
        isCapEventFor t e = false by
      intro he
      cases hrd : ov.requiredByDay with
      | none => rw [hrd] at he; exact h ([], []) (by simp) (by simpa [hrd] using he)
      | some entries => exact h ([], []) (by simp) (by simpa [hrd] using he)
    intro acc hacc
    induction (ov.requiredByDay.getD []) generalizing acc with
    | nil => intro he; exact hacc e he t
    | cons x xs ih =>
        simp only [List.foldl_cons]
        intro he
        refine ih _ ?_ he
        intro e2 he2 t2
        rcases List.mem_append.mp he2 with he2 | he2
        · exact hacc e2 he2 t2
        · exact filterKnown_events_no_cap lib x.2 _ e2 he2 t2
  · rcases List.mem_append.mp he with he | he
    rotate_left
    · exact filterKnown_events_no_cap lib _ _ e he t
    rcases List.mem_append.mp he with he | he
    rotate_left
    · exact filterKnown_events_no_cap lib _ _ e he t
    rcases List.mem_append.mp he with he | he
    rotate_left
    · exact filterKnown_events_no_cap lib _ _ e he t
    · exact filterKnown_events_no_cap lib _ _ e he t

theorem filter_cap_map_forbid (l : List String) (dn : Nat) (r : String) (t : Nat) :
    (l.map (fun id => AuditEvent.forbidRemoved dn id r)).filter (isCapEventFor t) = [] := by
  induction l with
  | nil => rfl
  | cons x xs ih => simpa [List.filter, isCapEventFor] using ih

theorem filter_cap_map_require (l : List String) (dn : Nat) (r : String) (t : Nat) :
    (l.map (fun id => AuditEvent.requireAdded dn id r)).filter (isCapEventFor t) = [] := by
  induction l with
  | nil => rfl
  | cons x xs ih => simpa [List.filter, isCapEventFor] using ih

theorem stepForbid_events_no_cap (f : List String) (dn : Nat) (m : List String) (t : Nat) :
    ((stepForbid f dn m).2).filter (isCapEventFor t) = [] := by
  unfold stepForbid
  split
  · exact filter_cap_map_forbid _ _ _ _
  · rfl

theorem stepRequire_events_no_cap (req : List String) (dn : Nat) (r : String)
    (m : List String) (t : Nat) :
    ((stepRequire req dn r m).2).filter (isCapEventFor t) = [] := by
  unfold stepRequire
  split
  · exact filter_cap_map_require _ _ _ _
  · rfl

theorem enforceDay_events_cap_filter (ctx : EnfCtx) (d : Json) (t : Nat) :
    ((enforceDay ctx d).2).filter (isCapEventFor t) =
      if t = normalizeDayNumber (d.lookup "day") then dayCapEvents ctx d else [] := by
  simp only [enforceDay, dayCapEvents]
  rw [List.filter_append, List.filter_append, List.filter_append, List.filter_append]
  rw [stepForbid_events_no_cap, stepRequire_events_no_cap, stepRequire_events_no_cap,
      stepRequire_events_no_cap]
  simp only [List.nil_append]
  cases ctx.maxModulesPerDay with
  | none =>
      dsimp only
      split <;> rfl
  | some n =>
      dsimp only
      by_cases hn : 0 < n
      · rw [if_pos hn, if_pos hn]
        rw [show strElems (Json.asArray ((d.lookup "moduleIds").getD Json.null))
              = dayModuleIds d from rfl]
        by_cases hrem :
            (stableCap (preCapIds ctx (normalizeDayNumber (d.lookup "day"))
              (normalizePhase (d.lookup "phase")) (dayModuleIds d)) n.toNat).removed = []
        · rw [if_pos hrem]
          split <;> rfl
        · rw [if_neg hrem]
          by_cases ht : t = normalizeDayNumber (d.lookup "day")
          · rw [if_pos ht]
            simp [List.filter, isCapEventFor, ht]
          · rw [if_neg ht]
            simp [List.filter, isCapEventFor, Ne.symm ht]
      · rw [if_neg hn, if_neg hn]
        split <;> rfl

theorem flatten_all_nil {α : Type} (L : List (List α)) (h : ∀ l ∈ L, l = []) :
    L.flatten = [] := by
  induction L with
  | nil => rfl
  | cons x xs ih =>
      rw [List.flatten_cons, h x (List.mem_cons_self x xs), List.nil_append]
      exact ih (fun l hl => h l (List.mem_cons_of_mem _ hl))

theorem flatten_single {α : Type} (L : List (List α)) (i : Nat) (x : List α)
    (hx : L[i]? = some x) (hother : ∀ j : Nat, j ≠ i → (L[j]?).getD [] = []) :
    L.flatten = x := by
  induction L generalizing i with
  | nil => simp at hx
  | cons a L' ih =>
      cases i with
      | zero =>
          have ha : a = x := by simpa using hx
          rw [List.flatten_cons, ha]
          have hnil : L'.flatten = [] := by
            refine flatten_all_nil L' (fun l hl => ?_)
            obtain ⟨j, hj⟩ := List.getElem?_of_mem hl
            have := hother (j + 1) (by omega)
            simpa [hj] using this
          rw [hnil, List.append_nil]
      | succ k =>
          have ha : a = [] := by
            have := hother 0 (by omega)
            simpa using this
          rw [List.flatten_cons, ha, List.nil_append]
          refine ih k (by simpa using hx) (fun j hj => ?_)
          have := hother (j + 1) (by omega)
          simpa using this

theorem parse_max_bounds (o : Json) (ov : ClinicOverrides) (n : Int)
    (hp : parseClinicOverrides o = some ov) (hm : ov.maxModulesPerDay = some n) :
    1 ≤ n ∧ n ≤ 50 := by
  cases o with
  | obj fields =>
      simp only [parseClinicOverrides] at hp
      by_cases hk : fields.all (fun p => clinicOverrideKeys.contains p.1)
      case neg => rw [if_neg hk] at hp; exact Option.noConfusion hp
      rw [if_pos hk] at hp
      simp only [bind, Option.bind_eq_some, pure, Option.some.injEq] at hp
      obtain ⟨v1, h1, v2, h2, v3, h3, v4, h4, v5, h5, v6, h6, v7, h7, hov⟩ := hp
      subst hov
      simp only at hm
      subst hm
      unfold parseOptField at h7
      cases hl : lookupFields fields "maxModulesPerDay" with
      | none =>
          rw [hl] at h7
          simp at h7
      | some j =>
          rw [hl] at h7
          dsimp only at h7
          cases hpm : parseMaxModulesPerDay j with
          | none => rw [hpm] at h7; exact Option.noConfusion h7
          | some m =>
              rw [hpm] at h7
              have hmn : m = n := by
                have h8 : some m = some n := by simpa using h7
                exact Option.some.inj h8
              subst hmn
              cases j with
              | num k =>
                  simp only [parseMaxModulesPerDay] at hpm
                  split at hpm
                  · rename_i hcond
                    obtain rfl : k = m := Option.some.inj hpm
                    exact hcond
                  · exact Option.noConfusion hpm
              | null => exact Option.noConfusion hpm
              | bool b => exact Option.noConfusion hpm
              | str s => exact Option.noConfusion hpm
              | arr xs => exact Option.noConfusion hpm
              | obj fs => exact Option.noConfusion hpm
  | null => exact Option.noConfusion hp
  | bool b => exact Option.noConfusion hp
  | num k => exact Option.noConfusion hp
  | str s => exact Option.noConfusion hp
  | arr xs => exact Option.noConfusion hp

/-- C6: with a valid policy setting `maxModulesPerDay = N`, after enforcement
every day's `moduleIds` has length at most N; each day is truncated
deterministically to the first N ids of its pre-cap list in current order; and
when the day's count exceeded N, a single `clinic_cap_trimmed` audit event for
that day lists exactly the removed ids (the pre-cap list's drop). -/
theorem c6_cap_respected_and_trimmed (plan o : Json) (ov : ClinicOverrides) (N : Int)
    (hp : parseClinicOverrides o = some ov)
    (hs : planShapeOk plan = true) (hv : plan.lookup "schemaVersion" = some (.num 2))
    (hmax : ov.maxModulesPerDay = some N)
    (hnodup : ((planDays plan).map (fun d => normalizeDayNumber (d.lookup "day"))).Nodup)
    (i : Nat) (d0 : Json) (hd0 : (planDays plan)[i]? = some d0) :
    (∀ d ∈ planDays (enforceClinicOverrides plan (some o)).1,
        (dayModuleIds d).length ≤ N.toNat) ∧
    ((planDays (enforceClinicOverrides plan (some o)).1)[i]?).map dayModuleIds =
      some ((preCapIds (buildCtx ov (planModules plan)).1
        (normalizeDayNumber (d0.lookup "day")) (normalizePhase (d0.lookup "phase"))
        (dayModuleIds d0)).take N.toNat) ∧
    ((enforceClinicOverrides plan (some o)).2.filter
        (isCapEventFor (normalizeDayNumber (d0.lookup "day")))) =
      (if N.toNat < (preCapIds (buildCtx ov (planModules plan)).1
            (normalizeDayNumber (d0.lookup "day")) (normalizePhase (d0.lookup "phase"))
            (dayModuleIds d0)).length
       then [.capTrimmed (normalizeDayNumber (d0.lookup "day"))
              ((preCapIds (buildCtx ov (planModules plan)).1
                (normalizeDayNumber (d0.lookup "day")) (normalizePhase (d0.lookup "phase"))
                (dayModuleIds d0)).drop N.toNat) N "maxModulesPerDay"]
       else []) := by
  have ht := parse_truthy o ov hp
  have hbounds := parse_max_bounds o ov N hp hmax
  have hN : (0 : Int) < N := by omega
  have hctxmax : (buildCtx ov (planModules plan)).1.maxModulesPerDay = some N := by
    rw [buildCtx_max, hmax]
  have hrun := enforce_eq_run plan o ov ht hp hs hv
  refine ⟨?_, ?_, ?_⟩
  · intro d hd
    rw [hrun] at hd
    dsimp only at hd
    rw [planDays_setField _ "meta" _ (by decide), planDays_setField_days] at hd
    obtain ⟨d1, hd1, rfl⟩ := List.mem_map.mp hd
    rw [enforceDay_moduleIds]
    exact finalIds_length_le _ _ _ _ N hctxmax hN
  · rw [hrun]
    dsimp only
    rw [planDays_setField _ "meta" _ (by decide), planDays_setField_days, List.getElem?_map,
        hd0]
    simp only [Option.map_some']
    rw [enforceDay_moduleIds, finalIds_eq_take _ _ _ _ N hctxmax hN]
  · rw [hrun]
    dsimp only
    rw [List.filter_append]
    have hpre : ((buildCtx ov (planModules plan)).2).filter
        (isCapEventFor (normalizeDayNumber (d0.lookup "day"))) = [] :=
      List.filter_eq_nil_iff.mpr (fun e he => by
        simp [buildCtx_events_no_cap ov (planModules plan) e he])
    rw [hpre, List.nil_append, List.filter_flatten, List.map_map]
    have hmap : (planDays plan).map
          ((fun l => l.filter (isCapEventFor (normalizeDayNumber (d0.lookup "day")))) ∘
            (fun d => (enforceDay (buildCtx ov (planModules plan)).1 d).2)) =
        (planDays plan).map (fun d =>
          if normalizeDayNumber (d0.lookup "day") = normalizeDayNumber (d.lookup "day")
          then dayCapEvents (buildCtx ov (planModules plan)).1 d else []) :=
      List.map_congr_left (fun d _ =>
        enforceDay_events_cap_filter (buildCtx ov (planModules plan)).1 d
          (normalizeDayNumber (d0.lookup "day")))
    rw [hmap]
    have hLi : ((planDays plan).map (fun d =>
          if normalizeDayNumber (d0.lookup "day") = normalizeDayNumber (d.lookup "day")
          then dayCapEvents (buildCtx ov (planModules plan)).1 d else []))[i]? =
        some (dayCapEvents (buildCtx ov (planModules plan)).1 d0) := by
      rw [List.getElem?_map, hd0]
      simp
    have hother : ∀ j : Nat, j ≠ i →
        (((planDays plan).map (fun d =>
          if normalizeDayNumber (d0.lookup "day") = normalizeDayNumber (d.lookup "day")
          then dayCapEvents (buildCtx ov (planModules plan)).1 d else []))[j]?).getD [] = [] := by
      intro j hj
      rw [List.getElem?_map]
      cases hdj : (planDays plan)[j]? with
      | none => rfl
      | some dj =>
          simp only [Option.map_some']
          rw [if_neg ?_]
          · rfl
          · intro heq
            have hmi : ((planDays plan).map
                  (fun d => normalizeDayNumber (d.lookup "day")))[i]? =
                some (normalizeDayNumber (d0.lookup "day")) := by
              rw [List.getElem?_map, hd0]
              rfl
            have hmj : ((planDays plan).map
                  (fun d => normalizeDayNumber (d.lookup "day")))[j]? =
                some (normalizeDayNumber (d0.lookup "day")) := by
              rw [List.getElem?_map, hdj]
              simp only [Option.map_some']
              rw [← heq]
            obtain ⟨hilt, hie⟩ := List.getElem?_eq_some_iff.mp hmi
            obtain ⟨hjlt, hje⟩ := List.getElem?_eq_some_iff.mp hmj
            have hij : i = j := (List.Nodup.getElem_inj_iff hnodup).mp (by rw [hie, hje])
            exact hj hij.symm
    rw [flatten_single _ i _ hLi hother]
    unfold dayCapEvents
    rw [hctxmax]
    dsimp only
    rw [if_pos hN, stableCap_removed_drop]
    by_cases hlen : N.toNat <
        (preCapIds (buildCtx ov (planModules plan)).1 (normalizeDayNumber (d0.lookup "day"))
          (normalizePhase (d0.lookup "phase")) (dayModuleIds d0)).length
    · rw [if_pos hlen, if_neg (by rw [List.drop_eq_nil_iff]; omega)]
    · rw [if_neg hlen, if_pos (by rw [List.drop_eq_nil_iff]; omega)]

/-- C6 witness (spec Example C: cap 2 on a day resolving 5 modules keeps the
first 2 and records the 3 removed ids in one audit event). -/
theorem c6_cap_respected_and_trimmed_witness :
    parseClinicOverrides exampleCPolicy = some exampleCParsed ∧
    planShapeOk exampleCPlan = true ∧
    exampleCPlan.lookup "schemaVersion" = some (.num 2) ∧
    exampleCParsed.maxModulesPerDay = some 2 ∧
    (planDays exampleCPlan)[0]? = some exampleCDay0 ∧
    (dayModuleIds c6EnforcedDay0).length ≤ (2 : Int).toNat ∧
    ((planDays (enforceClinicOverrides exampleCPlan (some exampleCPolicy)).1)[0]?).map dayModuleIds =
      some ((preCapIds (buildCtx exampleCParsed (planModules exampleCPlan)).1
        (normalizeDayNumber (exampleCDay0.lookup "day"))
        (normalizePhase (exampleCDay0.lookup "phase"))
        (dayModuleIds exampleCDay0)).take (2 : Int).toNat) ∧
    ((enforceClinicOverrides exampleCPlan (some exampleCPolicy)).2.filter
        (isCapEventFor (normalizeDayNumber (exampleCDay0.lookup "day")))) =
      (if (2 : Int).toNat < (preCapIds (buildCtx exampleCParsed (planModules exampleCPlan)).1
            (normalizeDayNumber (exampleCDay0.lookup "day"))
            (normalizePhase (exampleCDay0.lookup "phase"))
            (dayModuleIds exampleCDay0)).length
       then [.capTrimmed (normalizeDayNumber (exampleCDay0.lookup "day"))
              ((preCapIds (buildCtx exampleCParsed (planModules exampleCPlan)).1
                (normalizeDayNumber (exampleCDay0.lookup "day"))
                (normalizePhase (exampleCDay0.lookup "phase"))
                (dayModuleIds exampleCDay0)).drop (2 : Int).toNat) 2 "maxModulesPerDay"]
       else []) :=
  have h := c6_cap_respected_and_trimmed exampleCPlan exampleCPolicy exampleCParsed 2
    (by decide) (by decide) (by decide) (by decide) (by decide) 0 exampleCDay0 (by decide)
  ⟨by decide, by decide, by decide, by decide, by decide,
   h.1 c6EnforcedDay0 (by decide), h.2.1, h.2.2⟩
